import Mathlib

/-!
Shallow embedding of the MCP guardrails validation engine
(akto-api-security/cloudflare-container-deployment) in Lean 4.

The TypeScript sources are translated function by function:
  - `src/src/services/policy-validator.ts`  — orchestrator, extractor, safe methods
  - `src/workers/akto-ingest-guardrails/src/services/pii-validator.ts`
  - `src/workers/akto-ingest-guardrails/src/services/regex-validator.ts`
  - `src/workers/akto-ingest-guardrails/src/services/rate-limit-validator.ts`
  - `src/workers/akto-ingest-guardrails/src/services/threat-reporter.ts` (AuditValidator)
  - `src/unnamed/part_001` (ScannerClient), `src/unnamed/part_006` (policy manager)
  - `src/src/services/mcp-metadata-validator.ts`

Modelling conventions:
  - JSON values parsed by `JSON.parse` are modelled by the inductive `Json`;
    a raw payload string is carried together with its parse result in `Payload`
    (JSON.parse is a JS builtin, not repository code).
  - JavaScript numbers appearing in the code are integers except for the
    LLM scores and scanner risk scores, which are modelled as `Rat`
    (JSON decimal literals).  32-bit coercions (`|0`, `<<`, `&`, `~`, `>>> 0`)
    are modelled explicitly with `toInt32` / `toUint32`.
  - Network effects (scanner fetch, LLM fetch, KV store) are passed in as
    explicit arguments/oracles; each embedded function returns the writes it
    would perform.
  - JavaScript regular expressions are modelled by the small backtracking
    matcher `Rx.matchAt` (greedy, leftmost-preferred, with word boundaries),
    and the stateful `lastIndex` protocol of global regexes is made explicit.
-/

namespace AktoGuard

/-! ## JavaScript 32-bit integer semantics -/

/-- The `x >>> 0`: interpret an integer as an unsigned 32-bit value. -/
def toUint32 (x : Int) : Nat := (x % 4294967296).toNat

/-- Reinterpret an unsigned 32-bit bit pattern as a signed 32-bit integer. -/
def int32OfUInt32 (u : Nat) : Int :=
  if u < 2147483648 then (u : Int) else (u : Int) - 4294967296

/-- JavaScript `ToInt32` on an integer-valued number. -/
def toInt32 (x : Int) : Int := int32OfUInt32 (toUint32 x)

/-- JavaScript bitwise AND of an unsigned-32 value and a signed int32 value;
the result is a signed int32. -/
def jsAndU (a : Nat) (m : Int) : Int :=
  int32OfUInt32 ((a % 4294967296) &&& toUint32 m)

/-! ## JavaScript string primitives

`toLowerCase`, `toUpperCase`, `trim` and single-character `split` are
modelled directly on the character list (ASCII case mapping — every string
the repository compares or lowercases is ASCII). -/

/-- JS `\s` (ASCII portion). -/
def wsChar (c : Char) : Bool :=
  c == ' ' || c == '\t' || c == '\n' || c == '\r' || c == Char.ofNat 11 || c == Char.ofNat 12

/-- ASCII lowercase mapping of one character. -/
def asciiLower (c : Char) : Char :=
  if 'A' ≤ c && c ≤ 'Z' then Char.ofNat (c.toNat + 32) else c

/-- ASCII uppercase mapping of one character. -/
def asciiUpper (c : Char) : Char :=
  if 'a' ≤ c && c ≤ 'z' then Char.ofNat (c.toNat - 32) else c

/-- The `s.toLowerCase()`. -/
def jsToLower (s : String) : String := String.mk (s.data.map asciiLower)

/-- The `s.toUpperCase()`. -/
def jsToUpper (s : String) : String := String.mk (s.data.map asciiUpper)

/-- The `s.trim()`. -/
def jsTrim (s : String) : String :=
  String.mk (((s.data.dropWhile (fun c => wsChar c)).reverse.dropWhile
    (fun c => wsChar c)).reverse)

/-- Accumulating worker for single-character `split`. -/
def splitCharAux : List Char → Char → List Char → List (List Char)
  | [], _, acc => [acc.reverse]
  | c :: rest, sep, acc =>
    if c == sep then acc.reverse :: splitCharAux rest sep []
    else splitCharAux rest sep (c :: acc)

/-- The `s.split(sep)` for a one-character separator. -/
def jsSplitChar (s : String) (sep : Char) : List String :=
  (splitCharAux s.data sep []).map String.mk

/-! ## JSON values -/

/-- The result of `JSON.parse`. -/
inductive Json where
  | null : Json
  | bool : Bool → Json
  | num : Rat → Json
  | str : String → Json
  | arr : List Json → Json
  | obj : List (String × Json) → Json

/-- Property access `j.k` (returns `none` for JS `undefined`). -/
def Json.getField (j : Json) (k : String) : Option Json :=
  match j with
  | .obj fields => fields.lookup k
  | _ => none

/-- JavaScript truthiness of a value. -/
def Json.truthy : Json → Bool
  | .null => false
  | .bool b => b
  | .num q => !(q == 0)
  | .str s => !(s == "")
  | .arr _ => true
  | .obj _ => true

/-- Truthiness of a possibly-undefined value. -/
def jsTruthy : Option Json → Bool
  | none => false
  | some j => j.truthy

/-- The `v === s` for a string literal `s`. -/
def Json.eqStr (j : Json) (s : String) : Bool :=
  match j with
  | .str t => t == s
  | _ => false

/-- The `v as string | undefined` followed by a truthiness test: the string
content when the field holds a non-empty string. -/
def jsGetStr (j : Json) (k : String) : Option String :=
  match j.getField k with
  | some (.str s) => if s == "" then none else some s
  | _ => none

/-- JS number-to-string used in template literals; exact for integers, which
is the only case the repository's strings are built from (no claim depends
on non-integral rendering). -/
def renderRat (q : Rat) : String :=
  if q.den == 1 then toString q.num else toString q.num ++ "/" ++ toString q.den

/-- String escaping done by `JSON.stringify` (common characters). -/
def escapeJsonChar (c : Char) : String :=
  if c == '"' then "\\\""
  else if c == '\\' then "\\\\"
  else if c == '\n' then "\\n"
  else if c == '\r' then "\\r"
  else if c == '\t' then "\\t"
  else String.singleton c

/-- The `JSON.stringify` of a string. -/
def stringifyStr (s : String) : String :=
  "\"" ++ String.join (s.toList.map escapeJsonChar) ++ "\""

mutual

/-- The `JSON.stringify` of a value. -/
def Json.render : Json → String
  | .null => "null"
  | .bool b => cond b "true" "false"
  | .num q => renderRat q
  | .str s => stringifyStr s
  | .arr xs => "[" ++ Json.renderList xs ++ "]"
  | .obj fields => "\x7b" ++ Json.renderFields fields ++ "\x7d"

/-- Render a comma-separated list of array elements. -/
def Json.renderList : List Json → String
  | [] => ""
  | [x] => Json.render x
  | x :: xs => Json.render x ++ "," ++ Json.renderList xs

/-- Render a comma-separated list of object fields. -/
def Json.renderFields : List (String × Json) → String
  | [] => ""
  | [(k, v)] => stringifyStr k ++ ":" ++ Json.render v
  | (k, v) :: fs => stringifyStr k ++ ":" ++ Json.render v ++ "," ++ Json.renderFields fs

end

/-- String conversion in template literals (`${v}`). -/
def Json.toJsString : Json → String
  | .null => "null"
  | .bool b => cond b "true" "false"
  | .num q => renderRat q
  | .str s => s
  | .arr _ => ""
  | .obj _ => "[object Object]"

/-- A raw payload string together with its `JSON.parse` result
(`none` when parsing throws). -/
structure Payload where
  raw : String
  json : Option Json

/-! ## Records (JS plain objects used as maps) -/

/-- A JS object used as a string-keyed map.  Only lookup behaviour is
relevant to the claims, so assignment is modelled as prepend-after-erase. -/
def Record (α : Type) : Type := List (String × α)

/-- Empty object literal. -/
def Record.empty {α : Type} : Record α := []

/-- The `m[k]` (undefined when absent). -/
def Record.get {α : Type} : Record α → String → Option α
  | [], _ => none
  | (k', v) :: t, k => if k == k' then some v else Record.get t k

/-- Drop every binding of a key. -/
def Record.eraseKey {α : Type} : Record α → String → Record α
  | [], _ => []
  | (k', v) :: t, k =>
    if k' == k then Record.eraseKey t k else (k', v) :: Record.eraseKey t k

/-- The `m[k] = v`. -/
def Record.set {α : Type} (m : Record α) (k : String) (v : α) : Record α :=
  (k, v) :: Record.eraseKey m k

/-! ## Core validation data model (`src/types/mcp.ts`) -/

/-- Free-form rule configuration. -/
def FilterRuleConfig : Type := Record Json

structure FilterRule where
  type : String
  pattern : Option String := none
  action : Option String := none
  config : Option FilterRuleConfig := none

structure PolicyFilters where
  requestPayload : Option (List FilterRule) := none
  responsePayload : Option (List FilterRule) := none

structure Policy where
  id : String
  name : String
  active : Bool
  action : String
  filters : PolicyFilters

structure ApprovalConditions where
  expiresAt : Option Int := none
  allowedIps : Option (List String) := none
  allowedIpRanges : Option (List String) := none
  whitelistedEndpoints : Option (List String) := none

structure AuditPolicy where
  resourceName : String
  remarks : Option String := none
  markedBy : Option String := none
  approvalConditions : Option ApprovalConditions := none

/-- Parsed LLM validation verdict (`LLMValidationResponse`). -/
structure LLMValidationResponse where
  isMalicious : Bool
  maliciousMatchScore : Rat
  toolNameDescriptionMatchScore : Rat
  reason : String

/-- A value stored in a `ValidationResult.metadata` map. -/
inductive MetaVal where
  | str : String → MetaVal
  | int : Int → MetaVal
  | rat : Rat → MetaVal
  | json : Json → MetaVal
  | llm : LLMValidationResponse → MetaVal
  | undef : MetaVal

structure ValidationResult where
  allowed : Bool
  modified : Bool
  modifiedPayload : Option String := none
  reason : Option String := none
  metadata : Option (Record MetaVal) := none

/-- Look up a metadata key of a result. -/
def ValidationResult.metaGet (r : ValidationResult) (k : String) : Option MetaVal :=
  (r.metadata.getD Record.empty).get k

structure ValidationContext where
  ip : Option String := none
  endpoint : Option String := none
  method : Option String := none
  requestHeaders : Option (Record String) := none
  responseHeaders : Option (Record String) := none
  statusCode : Option Int := none
  requestPayload : Option String := none
  responsePayload : Option String := none
  mcpServerName : Option String := none
  policies : Option (List Policy) := none
  auditPolicies : Option (Record AuditPolicy) := none
  hasAuditRules : Option Bool := none

/-- Truthiness of an optional JS string. -/
def strOptTruthy : Option String → Bool
  | none => false
  | some s => !(s == "")

/-- Truthiness of `xs?.length`. -/
def listLenTruthy {α : Type} : Option (List α) → Bool
  | none => false
  | some l => !l.isEmpty

/-- The `v as string || ""` on a possibly-undefined JSON value, coerced to a
string the way JS later would. -/
def jsStringOrEmpty (v : Option Json) : String :=
  match v with
  | some j => if j.truthy then j.toJsString else ""
  | none => ""

/-- The `v === s` on a possibly-undefined JSON value. -/
def jsEqS (v : Option Json) (s : String) : Bool :=
  match v with
  | some j => j.eqStr s
  | none => false

/-- JavaScript `Math.floor` of an integer quotient. -/
def jsFloorDiv (a b : Int) : Int := Int.fdiv a b

/-! ## Audit validator (`threat-reporter.ts`, class `AuditValidator`) -/

namespace AuditValidator

/-- The `parseInt(s, 10)` (none models NaN). -/
def jsParseInt (s : String) : Option Int :=
  let cs := (jsTrim s).toList
  let signed : Int × List Char :=
    match cs with
    | '-' :: r => (-1, r)
    | '+' :: r => (1, r)
    | r => (1, r)
  let ds := signed.2.takeWhile Char.isDigit
  if ds.isEmpty then none
  else some (signed.1 * ((ds.foldl (fun a c => a * 10 + (c.toNat - 48)) 0 : Nat) : Int))

/-- The `ToInt32` of a possibly-NaN number (`ToInt32(NaN) = 0`). -/
def toInt32N : Option Int → Int
  | none => 0
  | some a => toInt32 a

/-- The `x >>> 0` of a possibly-NaN number. -/
def toUint32N : Option Int → Nat
  | none => 0
  | some a => toUint32 a

/-- The `ipToNumber`: fold the dotted octets with `(acc << 8) + parseInt(octet)`
and finish with `>>> 0`. -/
def ipToNumber (ip : String) : Nat :=
  toUint32N ((jsSplitChar ip '.').foldl
    (fun acc octet =>
      match jsParseInt octet with
      | none => none
      | some o => some (toInt32 (toInt32N acc * 256) + o))
    (some 0))

/-- The `2 ** e - 1` truncated toward zero, as `ToInt32` first does to the
float value: for `e ≥ 0` this is the integer `2^e - 1` (exact in floating
point for `e ≤ 53`, which covers every CIDR bit count); for `e < 0` the
float `2**e - 1` lies in `(-1, 0]` and truncates to 0. -/
def powTwoSubOneTrunc (e : Int) : Int :=
  if 0 ≤ e then 2 ^ e.toNat - 1 else 0

/-- The mask `~(2 ** (32 - bits) - 1)` (JS `~x` is `-ToInt32(x) - 1`;
`bits = none` models a NaN `parseInt`, for which the pipeline yields
`~ToInt32(NaN) = -1`). -/
def cidrMask (bits : Option Int) : Int :=
  match bits with
  | none => -1
  | some b => -(toInt32 (powTwoSubOneTrunc (32 - b))) - 1

/-- The `isIPInCIDR` (IPv4 only). -/
def isIPInCIDR (ip cidr : String) : Bool :=
  let parts := jsSplitChar cidr '/'
  match parts.get? 1 with
  | none => false
  | some bits =>
    if bits == "" then false
    else
      let mask := cidrMask (jsParseInt bits)
      let ipNum := ipToNumber ip
      let rangeNum := ipToNumber (parts.headD "")
      jsAndU ipNum mask == jsAndU rangeNum mask

/-- The `isIPAllowed`: exact IP match or any CIDR range match. -/
def isIPAllowed (clientIP : String) (allowedIPs allowedIPRanges : List String) : Bool :=
  allowedIPs.any (fun a => clientIP == a)
    || allowedIPRanges.any (fun r => isIPInCIDR clientIP r)

/-- The `extractResourceName` from the parsed MCP request. -/
def extractResourceName (requestData : Json) : String :=
  let method := requestData.getField "method"
  if !(jsTruthy method) then ""
  else
    let params := requestData.getField "params"
    if !(jsTruthy params) then ""
    else if jsEqS method "tools/call" || jsEqS method "prompts/get" then
      jsStringOrEmpty ((params.getD .null).getField "name")
    else if jsEqS method "resources/read" then
      jsStringOrEmpty ((params.getD .null).getField "uri")
    else ""

/-- A blocked result carrying the audit policy id. -/
def auditBlocked (why : String) : ValidationResult :=
  { allowed := false
    modified := false
    reason := some why
    metadata := some [("policy_id", .str "AuditPolicy")] }

/-- The `validateConditionalApproval` (expiry, then IP allow-list; whitelisted
endpoints are recognised but not enforced). -/
def validateConditionalApproval (policy : AuditPolicy) (ctx : ValidationContext)
    (nowMs : Int) : ValidationResult :=
  match policy.approvalConditions with
  | none => auditBlocked "No approval conditions defined"
  | some conditions =>
    let expired : Bool :=
      match conditions.expiresAt with
      | some e => decide (0 < e) && decide (e < jsFloorDiv nowMs 1000)
      | none => false
    if expired then auditBlocked "Conditional approval has expired"
    else
      let ipCheckApplies :=
        strOptTruthy ctx.ip
          && (listLenTruthy conditions.allowedIps || listLenTruthy conditions.allowedIpRanges)
      if ipCheckApplies
          && !(isIPAllowed (ctx.ip.getD "") (conditions.allowedIps.getD [])
                (conditions.allowedIpRanges.getD [])) then
        auditBlocked "Client IP is not in the allowed list"
      else
        { allowed := true, modified := false }

/-- The `validateWithPolicy`: dispatch on `remarks.trim().toLowerCase()`. -/
def validateWithPolicy (policy : AuditPolicy) (ctx : ValidationContext)
    (nowMs : Int) : ValidationResult :=
  let remarks := (policy.remarks.map jsTrim).getD ""
  let remarksLower := jsToLower remarks
  if remarksLower == "approved" then
    { allowed := true, modified := false }
  else if remarksLower == "rejected" then
    auditBlocked "Resource access has been rejected by Audit Policy"
  else if remarksLower == "conditionally approved" then
    validateConditionalApproval policy ctx nowMs
  else
    { allowed := true, modified := false }

/-- The `AuditValidator.validateRequest`: server-level policy first, then the
resource-level policy looked up by the raw resource name. -/
def validateRequest (payload : Payload) (ctx : ValidationContext)
    (nowMs : Int) : Option ValidationResult :=
  match payload.json with
  | none => none
  | some requestData =>
    let resourceName := extractResourceName requestData
    if resourceName == "" then none
    else
      let serverStep : Option ValidationResult :=
        if strOptTruthy ctx.mcpServerName then
          match Record.get (ctx.auditPolicies.getD Record.empty)
              (jsToLower (ctx.mcpServerName.getD "")) with
          | some serverPolicy =>
            let result := validateWithPolicy serverPolicy ctx nowMs
            if !result.allowed then some result else none
          | none => none
        else none
      match serverStep with
      | some r => some r
      | none =>
        match Record.get (ctx.auditPolicies.getD Record.empty) resourceName with
        | none => none
        | some policy => some (validateWithPolicy policy ctx nowMs)

end AuditValidator

/-! ## JavaScript regular expressions

A small backtracking matcher with JS semantics: greedy quantifiers,
leftmost-preferred alternation, word boundaries, leftmost match search.
Fuel only bounds recursion depth; every entry point computes a fuel that
dominates it, and all claim statements use the same entry points. -/

inductive Rx where
  | eps : Rx
  | cls : (Char → Bool) → Rx
  | seq : Rx → Rx → Rx
  | alt : Rx → Rx → Rx
  | rep : Rx → Nat → Option Nat → Rx
  | wordB : Rx

/-- JS `\w`: `[A-Za-z0-9_]`. -/
def isWordChar (c : Char) : Bool := c.isAlphanum || c == '_'

/-- Is the character at index `i` a word character? -/
def wordAt (s : List Char) (i : Nat) : Bool :=
  match s.get? i with
  | some c => isWordChar c
  | none => false

/-- JS `\b` at position `i`. -/
def atBoundary (s : List Char) (i : Nat) : Bool :=
  (if i == 0 then false else wordAt s (i - 1)) != wordAt s i

/-- Backtracking match attempt at a position, in continuation style.
Quantifiers are greedy; alternation prefers its left branch; an
unbounded/optional repetition refuses empty iterations. -/
def Rx.matchAt (s : List Char) : Nat → Rx → Nat → (Nat → Option Nat) → Option Nat
  | 0, _, _, _ => none
  | fuel + 1, rx, i, k =>
    match rx with
    | .eps => k i
    | .cls p =>
      match s.get? i with
      | some c => if p c then k (i + 1) else none
      | none => none
    | .seq a b => Rx.matchAt s fuel a i (fun j => Rx.matchAt s fuel b j k)
    | .alt a b =>
      match Rx.matchAt s fuel a i k with
      | some r => some r
      | none => Rx.matchAt s fuel b i k
    | .wordB => if atBoundary s i then k i else none
    | .rep a lo hi =>
      match lo with
      | n + 1 =>
        Rx.matchAt s fuel a i (fun j => Rx.matchAt s fuel (.rep a n (hi.map (· - 1))) j k)
      | 0 =>
        match hi with
        | some 0 => k i
        | _ =>
          match Rx.matchAt s fuel a i
              (fun j => if j == i then none
                        else Rx.matchAt s fuel (.rep a 0 (hi.map (· - 1))) j k) with
          | some r => some r
          | none => k i

/-- Syntactic size of a regex (for the fuel bound). -/
def Rx.size : Rx → Nat
  | .eps => 1
  | .cls _ => 1
  | .seq a b => a.size + b.size + 1
  | .alt a b => a.size + b.size + 1
  | .rep a lo hi => a.size + lo + hi.getD 0 + 2
  | .wordB => 1

/-- Fuel that dominates any backtracking depth on `s`. -/
def rxFuel (s : List Char) (rx : Rx) : Nat := (rx.size + 2) * (s.length + 2)

/-- The end position of a match attempt starting exactly at `i`. -/
def matchEndAt (s : List Char) (rx : Rx) (i : Nat) : Option Nat :=
  Rx.matchAt s (rxFuel s rx) rx i some

/-- Leftmost match `(begin, end)` at or after `start` (JS regex search). -/
def searchFromAux (s : List Char) (rx : Rx) : Nat → Nat → Option (Nat × Nat)
  | 0, _ => none
  | fuel + 1, i =>
    match matchEndAt s rx i with
    | some e => some (i, e)
    | none => if s.length ≤ i then none else searchFromAux s rx fuel (i + 1)

/-- Leftmost match at or after `start`; fails when `start` exceeds the
string length (as JS does with a stale `lastIndex`). -/
def searchFrom (s : List Char) (rx : Rx) (start : Nat) : Option (Nat × Nat) :=
  if s.length < start then none
  else searchFromAux s rx (s.length + 1 - start) start

/-- The `re.test(text)` for a non-global regex. -/
def jsTest (rx : Rx) (s : String) : Bool :=
  (searchFrom s.toList rx 0).isSome

/-- The `re.test(text)` for a global regex: search from `lastIndex`, and
return the updated `lastIndex` (match end on success, 0 on failure). -/
def jsTestG (rx : Rx) (s : String) (lastIndex : Nat) : Bool × Nat :=
  match searchFrom s.toList rx lastIndex with
  | some be => (true, be.2)
  | none => (false, 0)

/-- The `text.replace(re, repl)` for a non-global regex: first match only. -/
def jsReplaceFirst (rx : Rx) (s repl : String) : String :=
  match searchFrom s.toList rx 0 with
  | none => s
  | some be => String.mk (s.toList.take be.1 ++ repl.toList ++ s.toList.drop be.2)

/-- Iteration of global replace: empty matches advance by one character. -/
def replaceAllAux (s : List Char) (rx : Rx) (repl : List Char) : Nat → Nat → List Char
  | 0, pos => s.drop pos
  | fuel + 1, pos =>
    match searchFrom s rx pos with
    | none => s.drop pos
    | some (b, e) =>
      ((s.drop pos).take (b - pos)) ++ repl ++
        (if e == b then
          match s.get? e with
          | some c => c :: replaceAllAux s rx repl fuel (e + 1)
          | none => []
        else replaceAllAux s rx repl fuel e)

/-- The `text.replace(re, repl)` for a global regex: all matches; `lastIndex`
is reset to 0 afterwards. -/
def jsReplaceAll (rx : Rx) (s repl : String) : String :=
  String.mk (replaceAllAux s.toList rx repl.toList (s.toList.length + 2) 0)

/-! ### Regex construction helpers (transcribing the JS pattern literals) -/

/-- Literal character. -/
def lit (c : Char) : Rx := .cls (fun x => x == c)

/-- Literal character under the `i` flag. -/
def litCI (c : Char) : Rx := .cls (fun x => asciiLower x == asciiLower c)

/-- Sequence of regexes. -/
def seqL (l : List Rx) : Rx := l.foldr .seq .eps

/-- Literal string. -/
def strR (s : String) : Rx := seqL (s.toList.map lit)

/-- Literal string under the `i` flag. -/
def strCI (s : String) : Rx := seqL (s.toList.map litCI)

/-- The `\d`. -/
def digitR : Rx := .cls Char.isDigit

/-- Exactly `n` repetitions. -/
def repN (a : Rx) (n : Nat) : Rx := .rep a n (some n)

/-- Between `lo` and `hi` repetitions. -/
def repRange (a : Rx) (lo hi : Nat) : Rx := .rep a lo (some hi)

/-- The `{n,}`. -/
def atLeast (a : Rx) (n : Nat) : Rx := .rep a n none

/-- The `?`. -/
def optR (a : Rx) : Rx := .rep a 0 (some 1)

/-- The `+`. -/
def plusR (a : Rx) : Rx := .rep a 1 none

/-! ### The eight PII patterns (`pii-validator.ts`, `PII_PATTERNS`) -/

/-- The `/\b[A-Za-z0-9._%+-]+@[A-Za-z0-9.-]+\.[A-Z|a-z]\x7b2,\x7d\b/g` -/
def emailRx : Rx :=
  seqL [.wordB,
    plusR (.cls (fun c => c.isAlphanum || c == '.' || c == '_' || c == '%' || c == '+' || c == '-')),
    lit '@',
    plusR (.cls (fun c => c.isAlphanum || c == '.' || c == '-')),
    lit '.',
    atLeast (.cls (fun c => ('A' ≤ c && c ≤ 'Z') || c == '|' || ('a' ≤ c && c ≤ 'z'))) 2,
    .wordB]

/-- The `[-.\s]` -/
def sepCls : Rx := .cls (fun c => c == '-' || c == '.' || wsChar c)

/-- The `/\b(\+?\d\x7b1,3\x7d[-.\s]?)?(\(?\d\x7b3\x7d\)?[-.\s]?)?\d\x7b3\x7d[-.\s]?\d\x7b4\x7d\b/g` -/
def phoneRx : Rx :=
  seqL [.wordB,
    optR (seqL [optR (lit '+'), repRange digitR 1 3, optR sepCls]),
    optR (seqL [optR (lit '('), repN digitR 3, optR (lit ')'), optR sepCls]),
    repN digitR 3, optR sepCls, repN digitR 4, .wordB]

/-- The `/\b\d\x7b3\x7d-\d\x7b2\x7d-\d\x7b4\x7d\b/g` -/
def ssnRx : Rx :=
  seqL [.wordB, repN digitR 3, lit '-', repN digitR 2, lit '-', repN digitR 4, .wordB]

/-- The `/\b\d\x7b4\x7d[-\s]?\d\x7b4\x7d[-\s]?\d\x7b4\x7d[-\s]?\d\x7b4\x7d\b/g` -/
def creditCardRx : Rx :=
  let dashWs : Rx := .cls (fun c => c == '-' || wsChar c)
  seqL [.wordB, repN digitR 4, optR dashWs, repN digitR 4, optR dashWs,
    repN digitR 4, optR dashWs, repN digitR 4, .wordB]

/-- The `/\b(?:\d\x7b1,3\x7d\.)\x7b3\x7d\d\x7b1,3\x7d\b/g` -/
def ipAddressRx : Rx :=
  seqL [.wordB, repN (seqL [repRange digitR 1 3, lit '.']) 3, repRange digitR 1 3, .wordB]

/-- The `[\s:=]+` -/
def kvSep : Rx := plusR (.cls (fun c => wsChar c || c == ':' || c == '='))

/-- The `[^\s]+` -/
def nonWs : Rx := plusR (.cls (fun c => !wsChar c))

/-- The `/\b(password|passwd|pwd)[\s:=]+[^\s]+/gi` -/
def passwordRx : Rx :=
  seqL [.wordB, .alt (strCI "password") (.alt (strCI "passwd") (strCI "pwd")), kvSep, nonWs]

/-- The `/\b(api[_-]?key|apikey|access[_-]?token)[\s:=]+[^\s]+/gi` -/
def apiKeyRx : Rx :=
  let usDash : Rx := optR (.cls (fun c => c == '_' || c == '-'))
  seqL [.wordB,
    .alt (seqL [strCI "api", usDash, strCI "key"])
      (.alt (strCI "apikey") (seqL [strCI "access", usDash, strCI "token"])),
    kvSep, nonWs]

/-- The `/\bhttps?:\/\/[^\s]+/gi` -/
def urlRx : Rx :=
  seqL [.wordB, strCI "http", optR (litCI 's'), strR "://", nonWs]

/-- The module-level `PII_PATTERNS` record. -/
def PII_PATTERNS : Record Rx :=
  [("email", emailRx), ("phone", phoneRx), ("ssn", ssnRx), ("credit_card", creditCardRx),
   ("ip_address", ipAddressRx), ("password", passwordRx), ("api_key", apiKeyRx), ("url", urlRx)]

/-- Mutable `lastIndex` state of the shared global regex objects, one per
pattern key. -/
def PiiState : Type := String → Nat

/-- Fresh module state: every `lastIndex` is 0. -/
def PiiState.init : PiiState := fun _ => 0

/-- Update one regex's `lastIndex`. -/
def PiiState.set (st : PiiState) (k : String) (v : Nat) : PiiState :=
  fun x => if x == k then v else st x

/-- The `o || d` on an optional string. -/
def jsOrStr (o : Option String) (d : String) : String :=
  match o with
  | some s => if s == "" then d else s
  | none => d

/-- The trivial allow result. -/
def allowResult : ValidationResult := { allowed := true, modified := false }

/-! ## PII validator (`pii-validator.ts`) -/

namespace PIIValidator

/-- The `PIIValidator.validate`, with the shared mutable regex state made
explicit: returns the result and the new module state. -/
def validate (text : String) (rule : FilterRule) (policy : Policy)
    (st : PiiState) : ValidationResult × PiiState :=
  match rule.pattern with
  | none => (allowResult, st)
  | some piiType =>
    if piiType == "" then (allowResult, st)
    else
      let key := jsToLower piiType
      match Record.get PII_PATTERNS key with
      | none => (allowResult, st)
      | some piiRegex =>
        let tr := jsTestG piiRegex text (st key)
        let st1 := st.set key tr.2
        if tr.1 then
          let action := jsOrStr rule.action "block"
          if action == "block" then
            ({ allowed := false
               modified := false
               reason := some ("Blocked due to PII detection: " ++ piiType)
               metadata := some [("policy_id", .str policy.id), ("rule_type", .str "pii"),
                 ("pii_type", .str piiType)] }, st1)
          else if action == "redact" then
            ({ allowed := true
               modified := true
               modifiedPayload :=
                 some (jsReplaceAll piiRegex text ("[" ++ jsToUpper piiType ++ "_REDACTED]")) },
             st1.set key 0)
          else (allowResult, st1)
        else (allowResult, st1)

end PIIValidator

/-! ## Regex validator (`regex-validator.ts`) -/

namespace RegexValidator

/-- The `RegexValidator.validate`.  `compile` models `new RegExp(pattern, "i")`
(the JS regex engine); `none` models a `SyntaxError`, which the `catch`
turns into an allow. -/
def validate (compile : String → Option Rx) (text : String) (rule : FilterRule)
    (policy : Policy) : ValidationResult :=
  match rule.pattern with
  | none => allowResult
  | some pattern =>
    if pattern == "" then allowResult
    else
      match compile pattern with
      | none => allowResult
      | some regex =>
        if jsTest regex text then
          let action := jsOrStr rule.action "block"
          if action == "block" then
            { allowed := false
              modified := false
              reason := some ("Blocked by regex pattern: " ++ pattern)
              metadata := some [("policy_id", .str policy.id), ("rule_type", .str "regex"),
                ("pattern", .str pattern)] }
          else if action == "redact" then
            { allowed := true
              modified := true
              modifiedPayload := some (jsReplaceFirst regex text "[REDACTED]") }
          else allowResult
        else allowResult

end RegexValidator

/-! ## Scanner client (`scanner-client.ts`) -/

structure ScannerInfo where
  scanner_type : String
  scanner_name : String
  config : FilterRuleConfig

structure ScanResult where
  scanner_name : String
  is_valid : Bool
  risk_score : Rat
  sanitized_text : Option String := none
  details : Option Json := none
  execution_time_ms : Int := 0

structure ScanResponse where
  total_time_ms : Int
  results : List ScanResult
  success_count : Nat
  failure_count : Nat

namespace ScannerClient

def MAX_REQUEST_BODY_SIZE : Nat := 1 * 1024 * 1024

/-- The `getScannersForFilterType`. -/
def getScannersForFilterType (filterType : String) : List String :=
  if filterType == "harmfulCategories" then ["Toxicity"]
  else if filterType == "promptAttacks" then ["PromptInjection"]
  else if filterType == "banSubstrings" then ["BanSubstrings"]
  else if filterType == "banTopics" then ["BanTopics"]
  else []

/-- The `isScannerFilterType`. -/
def isScannerFilterType (filterType : String) : Bool :=
  filterType == "harmfulCategories" || filterType == "promptAttacks"
    || filterType == "deniedTopics"

/-- The `callSingleScanAPI`: the oversize check happens before any fetch; the
network outcome of the POST is the oracle `net` (`Except.error` models a
rejected promise: non-2xx status, abort, or network failure). -/
def callSingleScanAPI (net : ScannerInfo → Except Unit ScanResult) (text : String)
    (scanner : ScannerInfo) : Except Unit ScanResult :=
  if MAX_REQUEST_BODY_SIZE < text.length then .error () else net scanner

/-- The `scan`: fan out one call per scanner, collect fulfilled results, count
successes (`is_valid`) and failures (rejections and `is_valid=false`).
Wall-clock `total_time_ms` is not modelled (always 0). -/
def scan (net : ScannerInfo → Except Unit ScanResult) (text : String)
    (scanners : List ScannerInfo) : ScanResponse :=
  if scanners.isEmpty then
    { total_time_ms := 0, results := [], success_count := 0, failure_count := 0 }
  else
    let settled := scanners.map (callSingleScanAPI net text)
    { total_time_ms := 0
      results := settled.filterMap (fun r => match r with | .ok v => some v | .error _ => none)
      success_count := (settled.filter (fun r => match r with
        | .ok v => v.is_valid | .error _ => false)).length
      failure_count := (settled.filter (fun r => match r with
        | .ok v => !v.is_valid | .error _ => true)).length }

end ScannerClient

/-! ## Policy validator / orchestrator (`policy-validator.ts`) -/

/-- A scanner task tagged with the originating policy. -/
structure ScannerTask extends ScannerInfo where
  policyId : String
  policyName : String

/-- Truthiness of an optional boolean. -/
def boolOptTruthy : Option Bool → Bool
  | some b => b
  | none => false

/-- Template-literal rendering of a possibly-undefined value. -/
def jsToStr (o : Option Json) : String :=
  match o with
  | some j => j.toJsString
  | none => "undefined"

namespace PolicyValidator

def SAFE_MCP_METHODS : List String :=
  ["initialize", "initialized", "ping", "$/cancelRequest", "$/progress",
   "notifications/initialized", "notifications/cancelled", "notifications/progress"]

/-- The `isSafeMCPMethod`. -/
def isSafeMCPMethod (method : String) : Bool :=
  SAFE_MCP_METHODS.contains method

/-- The `extractFromParams`: project the user-controlled content by method. -/
def extractFromParams (method : Option Json) (params : Json) (fullPayload : String) : String :=
  if jsEqS method "tools/call" then
    let toolName := params.getField "name"
    let args := params.getField "arguments"
    if jsTruthy toolName && jsTruthy args then
      "Tool: " ++ jsToStr toolName ++ "\nArguments:\n" ++ (args.getD .null).render
        ++ "\nContext:\norigin: mcp_call"
    else if jsTruthy toolName then
      "Tool: " ++ jsToStr toolName ++ "\nArguments:\n\x7b\x7d\nContext:\norigin: mcp_call"
    else fullPayload
  else if jsEqS method "sampling/createMessage" || jsEqS method "prompts/get" then
    let messagesField := params.getField "messages"
    let collect : List Json → String := fun messages =>
      let fromMsgs := messages.filterMap (fun msg =>
        let content := msg.getField "content"
        if jsTruthy content then some (Json.obj [("_message_content", content.getD .null)])
        else none)
      let promptField := params.getField "prompt"
      let userFields := fromMsgs ++
        (if jsTruthy promptField then [Json.obj [("_prompt", promptField.getD .null)]] else [])
      if userFields.isEmpty then fullPayload else (Json.arr userFields).render
    match messagesField with
    | some (.arr messages) => collect messages
    | some (.str _) => collect []
    | some v => if v.truthy then fullPayload else collect []
    | none => collect []
  else if jsEqS method "resources/read" then
    let uri := params.getField "uri"
    if jsTruthy uri then (Json.arr [Json.obj [("_resource_uri", uri.getD .null)]]).render
    else fullPayload
  else (Json.arr [params]).render

/-- The `extractUserControlledFields`. -/
def extractUserControlledFields (payload : Payload) : String :=
  if payload.raw == "" then ""
  else
    match payload.json with
    | none => payload.raw
    | some mcpRequest =>
      let method := mcpRequest.getField "method"
      if !jsTruthy method then payload.raw
      else
        let isSafe := match method with
          | some (.str m) => isSafeMCPMethod m
          | _ => false
        if isSafe then ""
        else
          let params := mcpRequest.getField "params"
          if !jsTruthy params then payload.raw
          else extractFromParams method (params.getD .null) payload.raw

/-- Collect the scanner tasks of the active policies for one side. -/
def collectScannerTasks (policies : List Policy) (side : Policy → Option (List FilterRule))
    (scannerType : String) : List ScannerTask :=
  policies.foldl (fun acc policy =>
    if !policy.active then acc
    else
      acc ++ ((side policy).getD []).foldl (fun acc2 rule =>
        if ScannerClient.isScannerFilterType rule.type then
          acc2 ++ (ScannerClient.getScannersForFilterType rule.type).map (fun scannerName =>
            { scanner_type := scannerType, scanner_name := scannerName,
              config := rule.config.getD Record.empty,
              policyId := policy.id, policyName := policy.name })
        else acc2) []) []

/-- The block result built from the first `is_valid=false` scan result. -/
def scannerBlockResult (scannerTasks : List ScannerTask) (result : ScanResult) :
    ValidationResult :=
  let matchedTask := scannerTasks.find? (fun t => t.scanner_name == result.scanner_name)
  { allowed := false
    modified := false
    reason := some ("Blocked by scanner: " ++ result.scanner_name
      ++ " (risk score: " ++ renderRat result.risk_score ++ ")")
    metadata := some [("policy_id", .str (jsOrStr (matchedTask.map (·.policyId)) "unknown")),
      ("scanner", .str result.scanner_name),
      ("risk_score", .rat result.risk_score),
      ("details", match result.details with | some d => .json d | none => .undef)] }

/-- Outcome of one orchestrator call: the result, plus the list of scanner
tasks actually submitted to `ScannerClient.scan` (empty when the scanner
client was not invoked). -/
structure Outcome where
  result : ValidationResult
  scannerTasks : List ScannerTask

/-- Step 1 of `PolicyValidator.validateRequest`: the audit check, returning
the audit result when it blocks. -/
def auditBlockStep (payload : Payload) (valCtx : ValidationContext) (nowMs : Int) :
    Option ValidationResult :=
  if boolOptTruthy valCtx.hasAuditRules && valCtx.auditPolicies.isSome then
    match AuditValidator.validateRequest payload valCtx nowMs with
    | some auditResult => if !auditResult.allowed then some auditResult else none
    | none => none
  else none

/-- The `PolicyValidator.validateRequest`: audit first, then extraction with the
safe-method short-circuit, then scanner fan-out. -/
def validateRequest (net : ScannerInfo → Except Unit ScanResult) (payload : Payload)
    (valCtx : ValidationContext) (nowMs : Int) : Outcome :=
  if payload.raw == "" then { result := allowResult, scannerTasks := [] }
  else
    match auditBlockStep payload valCtx nowMs with
    | some blocked => { result := blocked, scannerTasks := [] }
    | none =>
      let policies := valCtx.policies.getD []
      let extractedPayload := extractUserControlledFields payload
      if extractedPayload == "" then { result := allowResult, scannerTasks := [] }
      else
        let scannerTasks := collectScannerTasks policies (fun p => p.filters.requestPayload) "prompt"
        if scannerTasks.isEmpty then { result := allowResult, scannerTasks := [] }
        else
          let scanResponse := ScannerClient.scan net extractedPayload
            (scannerTasks.map (·.toScannerInfo))
          match scanResponse.results.find? (fun r => !r.is_valid) with
          | some result =>
            { result := scannerBlockResult scannerTasks result, scannerTasks := scannerTasks }
          | none => { result := allowResult, scannerTasks := scannerTasks }

/-- The `PolicyValidator.validateResponse`: response-side rules, scanned against
the raw payload; no audit step and no extraction. -/
def validateResponse (net : ScannerInfo → Except Unit ScanResult) (payload : Payload)
    (valCtx : ValidationContext) : Outcome :=
  if payload.raw == "" then { result := allowResult, scannerTasks := [] }
  else
    let policies := valCtx.policies.getD []
    let scannerTasks := collectScannerTasks policies (fun p => p.filters.responsePayload) "output"
    if scannerTasks.isEmpty then { result := allowResult, scannerTasks := [] }
    else
      let scanResponse := ScannerClient.scan net payload.raw (scannerTasks.map (·.toScannerInfo))
      match scanResponse.results.find? (fun r => !r.is_valid) with
      | some result =>
        { result := scannerBlockResult scannerTasks result, scannerTasks := scannerTasks }
      | none => { result := allowResult, scannerTasks := scannerTasks }

end PolicyValidator

/-! ## Rate-limit validator (`rate-limit-validator.ts`) -/

/-- A stored KV cell `{count, resetAt}` (unix-ms). -/
structure RateLimitCell where
  count : Nat
  resetAt : Int
deriving DecidableEq

/-- The `RATE_LIMIT_IDENTIFIER_TYPE`. -/
inductive RateLimitIdentifierType where
  | IP : RateLimitIdentifierType
  | USER : RateLimitIdentifierType
  | TOOL : RateLimitIdentifierType

structure RateLimitConfig where
  enabled : Bool
  limit : Nat
  windowSeconds : Nat
  identifierTypes : List RateLimitIdentifierType

/-- JavaScript `Math.ceil(a / b)` for integers, `b > 0`. -/
def jsCeilDiv (a b : Int) : Int := -(Int.fdiv (-a) b)

namespace RateLimitValidator

/-- The `extractToolName`: `tools/call` only, `params?.name || null`. -/
def extractToolName (requestData : Json) : Option String :=
  if !jsEqS (requestData.getField "method") "tools/call" then none
  else
    let name := ((requestData.getField "params").getD .null).getField "name"
    if jsTruthy name then some (jsToStr name) else none

/-- The `getRateLimitKey`. -/
def getRateLimitKey (identifier : String) : String := "ratelimit:" ++ identifier

/-- What one `checkRateLimit` call does: the KV write it performs (value
and `expirationTtl` in seconds), and the returned record. -/
structure CheckOutcome where
  write : Option (RateLimitCell × Int)
  allowed : Bool
  currentCount : Nat
  resetAt : Int
deriving DecidableEq

/-- The `checkRateLimit` acting on the read cell `data` at time `now` (ms). -/
def checkRateLimit (data : Option RateLimitCell) (now : Int) (limit : Nat)
    (windowSeconds : Nat) : CheckOutcome :=
  let fresh : CheckOutcome :=
    let resetAt := now + (windowSeconds : Int) * 1000
    { write := some ({ count := 1, resetAt := resetAt }, (windowSeconds : Int))
      allowed := true, currentCount := 1, resetAt := resetAt }
  match data with
  | none => fresh
  | some d =>
    if d.resetAt < now then fresh
    else if limit ≤ d.count then
      { write := none, allowed := false, currentCount := d.count, resetAt := d.resetAt }
    else
      let newCount := d.count + 1
      { write := some ({ count := newCount, resetAt := d.resetAt },
          jsCeilDiv (d.resetAt - now) 1000)
        allowed := true, currentCount := newCount, resetAt := d.resetAt }

/-- Outcome of `RateLimitValidator.validateRequest`: the returned result
(`none` models the `null` returns), the KV key consulted, and the write. -/
structure RLOutcome where
  result : Option ValidationResult
  key : Option String
  write : Option (RateLimitCell × Int)

/-- The `RateLimitValidator.validateRequest`.  `data` is the value the KV read
returns for the computed key; `now` is `Date.now()` inside
`checkRateLimit` and `now2` the later `Date.now()` used for
`reset_in_seconds`. -/
def validateRequest (payload : Payload) (valCtx : ValidationContext)
    (rateLimitConfig : Option RateLimitConfig) (data : Option RateLimitCell)
    (now now2 : Int) : RLOutcome :=
  match rateLimitConfig with
  | none => { result := none, key := none, write := none }
  | some config =>
    if !config.enabled then { result := none, key := none, write := none }
    else
      match payload.json with
      | none => { result := none, key := none, write := none }
      | some requestData =>
        match extractToolName requestData with
        | none => { result := none, key := none, write := none }
        | some toolName =>
          let identifierParts := config.identifierTypes.map (fun idType =>
            match idType with
            | .IP => jsOrStr valCtx.ip "unknown"
            | .USER => jsOrStr ((valCtx.requestHeaders.getD Record.empty).get "x-user-id")
                (jsOrStr valCtx.ip "unknown")
            | .TOOL => toolName)
          let identifier := String.intercalate ":" identifierParts
          let key := getRateLimitKey identifier
          let result := checkRateLimit data now config.limit config.windowSeconds
          if !result.allowed then
            let resetInSeconds := jsCeilDiv (result.resetAt - now2) 1000
            { result := some
                { allowed := false
                  modified := false
                  reason := some ("Rate limit exceeded for tool '" ++ toolName
                    ++ "'. Try again in " ++ toString resetInSeconds ++ " seconds.")
                  metadata := some [("policy_id", .str "RateLimitPolicy"),
                    ("tool_name", .str toolName),
                    ("current_count", .int (result.currentCount : Int)),
                    ("limit", .int (config.limit : Int)),
                    ("reset_at", .int result.resetAt),
                    ("reset_in_seconds", .int resetInSeconds)] }
              key := some key, write := result.write }
          else
            { result := some
                { allowed := true
                  modified := false
                  metadata := some [("rate_limit_current", .int (result.currentCount : Int)),
                    ("rate_limit_max", .int (config.limit : Int))] }
              key := some key, write := result.write }

end RateLimitValidator

/-! ## Policy manager (`policy-manager.ts`) -/

namespace PolicyManager

/-- The pure tail of `fetchMcpAuditInfo`: turn the fetched
`mcpAuditInfoList` array (whose elements may be `null`) into the
audit-policy map. -/
def buildAuditPoliciesMap (mcpAuditInfoList : List (Option AuditPolicy)) :
    Record AuditPolicy :=
  mcpAuditInfoList.foldl (fun acc policy? =>
    match policy? with
    | some policy =>
      if policy.resourceName == "" then acc
      else acc.set policy.resourceName policy
    | none => acc) Record.empty

end PolicyManager

/-! ## Metadata auditor (`mcp-metadata-validator.ts`) -/

namespace McpMetadataValidator

/-- One invocation of `reportThreat`: the result and the (modified)
context it is given. -/
structure ThreatReportCall where
  validationResult : ValidationResult
  valCtx : ValidationContext

/-- The `reportToolThreat`: filtered single-tool response, synthetic endpoint. -/
def reportToolThreat (toolData : Json) (validationResp : LLMValidationResponse)
    (valCtx : ValidationContext) : ThreatReportCall :=
  let filteredResponse := Json.obj [("result", Json.obj [("tools", Json.arr [toolData])])]
  let toolName := jsToStr (toolData.getField "name")
  let customEndpoint := (match valCtx.endpoint with | some e => e | none => "undefined")
    ++ "/tools/list/" ++ toolName
  { validationResult :=
      { allowed := false
        modified := false
        reason := some ("Malicious MCP component detected: " ++ validationResp.reason)
        metadata := some [("policy_id", .str "MCPMaliciousComponent"),
          ("validation", .llm validationResp)] }
    valCtx := { valCtx with
      endpoint := some customEndpoint
      responsePayload := some filteredResponse.render } }

/-- The `validateTool`: the LLM verdict for the tool's prompt is the oracle
`llmVerdict` (`Except.error` models a thrown/failed LLM call, which is
caught and reported nowhere).  Returns the `reportThreat` calls issued. -/
def validateTool (tool : Json) (valCtx : ValidationContext)
    (llmVerdict : Except Unit LLMValidationResponse) : List ThreatReportCall :=
  let toolName := tool.getField "name"
  if !jsTruthy toolName then []
  else
    match llmVerdict with
    | .error _ => []
    | .ok validationResp =>
      if validationResp.maliciousMatchScore > (0.75 : Rat)
          || validationResp.toolNameDescriptionMatchScore < (0.7 : Rat) then
        [reportToolThreat tool validationResp valCtx]
      else []

end McpMetadataValidator

/-- The last policy in a fetched `mcpAuditInfoList` carrying a given
resource name (specification-side characterization used to settle C4). -/
def lastWithName : List (Option AuditPolicy) → String → Option AuditPolicy
  | [], _ => none
  | policy? :: rest, r =>
    match lastWithName rest r with
    | some q => some q
    | none =>
      match policy? with
      | some p => if p.resourceName == r then some p else none
      | none => none

/-- Invariants I1 and I2 of the spec, on a single result: a disallowed
result has a non-empty reason, and a modified result carries a modified
payload and is allowed. -/
def resultInvariant (r : ValidationResult) : Prop :=
  (r.allowed = false → ∃ s, r.reason = some s ∧ s ≠ "") ∧
  (r.modified = true → r.modifiedPayload.isSome = true ∧ r.allowed = true)

/-! ## Helper lemmas -/

theorem strAppend_ne_empty (a b : String) (h : a ≠ "") : a ++ b ≠ "" := by
  intro hc
  apply h
  have hdata : a.data ++ b.data = [] := by
    have := congrArg String.data hc
    simpa [String.data_append] using this
  rcases List.append_eq_nil.mp hdata with ⟨ha, _⟩
  cases a
  simp_all

theorem scanError_filterMap (net : ScannerInfo → Except Unit ScanResult) (text : String)
    (h : ScannerClient.MAX_REQUEST_BODY_SIZE < text.length) (l : List ScannerInfo) :
    (l.map (ScannerClient.callSingleScanAPI net text)).filterMap
      (fun r => match r with | .ok v => some v | .error _ => none) = [] := by
  induction l with
  | nil => rfl
  | cons s rest ih =>
    simp only [List.map_cons, List.filterMap_cons]
    rw [show ScannerClient.callSingleScanAPI net text s = .error () from by
      simp [ScannerClient.callSingleScanAPI, h]]
    exact ih

theorem scanError_failures (net : ScannerInfo → Except Unit ScanResult) (text : String)
    (h : ScannerClient.MAX_REQUEST_BODY_SIZE < text.length) (l : List ScannerInfo) :
    ((l.map (ScannerClient.callSingleScanAPI net text)).filter
      (fun r => match r with | .ok v => !v.is_valid | .error _ => true)).length = l.length := by
  induction l with
  | nil => rfl
  | cons s rest ih =>
    simp only [List.map_cons, List.filter_cons]
    rw [show ScannerClient.callSingleScanAPI net text s = .error () from by
      simp [ScannerClient.callSingleScanAPI, h]]
    simpa using ih

theorem scanError_successes (net : ScannerInfo → Except Unit ScanResult) (text : String)
    (h : ScannerClient.MAX_REQUEST_BODY_SIZE < text.length) (l : List ScannerInfo) :
    ((l.map (ScannerClient.callSingleScanAPI net text)).filter
      (fun r => match r with | .ok v => v.is_valid | .error _ => false)).length = 0 := by
  induction l with
  | nil => rfl
  | cons s rest ih =>
    simp only [List.map_cons, List.filter_cons]
    rw [show ScannerClient.callSingleScanAPI net text s = .error () from by
      simp [ScannerClient.callSingleScanAPI, h]]
    simpa using ih

/-! ## Claim theorems -/

/-- C8: for every text longer than 1 MiB and every non-empty scanner list,
`ScannerClient.scan` produces no scan result at all: the response has an
empty results list, zero successes, and a failure count equal to the number
of scanners (each `callSingleScanAPI` rejects before any fetch). -/
theorem c8_oversize_text_rejected (net : ScannerInfo → Except Unit ScanResult)
    (text : String) (scanners : List ScannerInfo)
    (hlen : ScannerClient.MAX_REQUEST_BODY_SIZE < text.length)
    (hne : scanners ≠ []) :
    ScannerClient.scan net text scanners =
      { total_time_ms := 0, results := [], success_count := 0,
        failure_count := scanners.length } := by
  have hie : scanners.isEmpty = false := by simpa [List.isEmpty_iff] using hne
  simp only [ScannerClient.scan, hie, Bool.false_eq_true, if_false,
    scanError_filterMap net text hlen scanners,
    scanError_failures net text hlen scanners,
    scanError_successes net text hlen scanners]

/-- Witness for C8 at a concrete oversized input. -/
theorem c8_oversize_text_rejected_witness :
    ScannerClient.scan (fun s => .ok
        { scanner_name := s.scanner_name, is_valid := false, risk_score := 1,
          execution_time_ms := 0 })
      (String.mk (List.replicate 1048577 'a'))
      [{ scanner_type := "prompt", scanner_name := "Toxicity", config := Record.empty }] =
      { total_time_ms := 0, results := [], success_count := 0, failure_count := 1 } := by
  refine c8_oversize_text_rejected _ _ _ ?_ (by simp)
  have h : (String.mk (List.replicate 1048577 'a')).length = 1048577 :=
    List.length_replicate 1048577 'a'
  rw [h]
  norm_num [ScannerClient.MAX_REQUEST_BODY_SIZE]

/-- C5: `checkRateLimit` follows the windowed counter protocol — absent or
expired cell: write `{count 1, resetAt now + windowSeconds·1000}` with TTL
`windowSeconds` and allow with count 1; `count ≥ limit`: no write, blocked;
otherwise write `{count+1, resetAt unchanged}` with TTL
`ceil((resetAt − now)/1000)` and allow.  `jsCeilDiv` is the integer ceiling.
The validator's blocked result carries `policy_id = "RateLimitPolicy"`, the
tool name, `current_count`, `limit`, `reset_at` and `reset_in_seconds`, and
its reason names the tool and the seconds until reset. -/
theorem c5_rate_limit_protocol :
    (∀ (now : Int) (limit windowSeconds : Nat),
      RateLimitValidator.checkRateLimit none now limit windowSeconds =
        { write := some ({ count := 1, resetAt := now + (windowSeconds : Int) * 1000 },
            (windowSeconds : Int))
          allowed := true, currentCount := 1
          resetAt := now + (windowSeconds : Int) * 1000 }) ∧
    (∀ (d : RateLimitCell) (now : Int) (limit windowSeconds : Nat),
      d.resetAt < now →
      RateLimitValidator.checkRateLimit (some d) now limit windowSeconds =
        { write := some ({ count := 1, resetAt := now + (windowSeconds : Int) * 1000 },
            (windowSeconds : Int))
          allowed := true, currentCount := 1
          resetAt := now + (windowSeconds : Int) * 1000 }) ∧
    (∀ (d : RateLimitCell) (now : Int) (limit windowSeconds : Nat),
      now ≤ d.resetAt → limit ≤ d.count →
      RateLimitValidator.checkRateLimit (some d) now limit windowSeconds =
        { write := none, allowed := false, currentCount := d.count, resetAt := d.resetAt }) ∧
    (∀ (d : RateLimitCell) (now : Int) (limit windowSeconds : Nat),
      now ≤ d.resetAt → d.count < limit →
      RateLimitValidator.checkRateLimit (some d) now limit windowSeconds =
        { write := some ({ count := d.count + 1, resetAt := d.resetAt },
            jsCeilDiv (d.resetAt - now) 1000)
          allowed := true, currentCount := d.count + 1, resetAt := d.resetAt }) ∧
    (∀ (a : Int), 1000 * (jsCeilDiv a 1000 - 1) < a ∧ a ≤ 1000 * jsCeilDiv a 1000) ∧
    (∀ (payload : Payload) (valCtx : ValidationContext) (config : RateLimitConfig)
        (data : Option RateLimitCell) (now now2 : Int) (j : Json) (toolName : String),
      payload.json = some j →
      RateLimitValidator.extractToolName j = some toolName →
      config.enabled = true →
      (RateLimitValidator.checkRateLimit data now config.limit config.windowSeconds).allowed
        = false →
      (RateLimitValidator.validateRequest payload valCtx (some config) data now now2).result =
        some { allowed := false
               modified := false
               reason := some ("Rate limit exceeded for tool '" ++ toolName
                 ++ "'. Try again in "
                 ++ toString (jsCeilDiv
                   ((RateLimitValidator.checkRateLimit data now config.limit
                     config.windowSeconds).resetAt - now2) 1000)
                 ++ " seconds.")
               metadata := some [("policy_id", .str "RateLimitPolicy"),
                 ("tool_name", .str toolName),
                 ("current_count", .int ((RateLimitValidator.checkRateLimit data now
                   config.limit config.windowSeconds).currentCount : Int)),
                 ("limit", .int (config.limit : Int)),
                 ("reset_at", .int (RateLimitValidator.checkRateLimit data now
                   config.limit config.windowSeconds).resetAt),
                 ("reset_in_seconds", .int (jsCeilDiv
                   ((RateLimitValidator.checkRateLimit data now config.limit
                     config.windowSeconds).resetAt - now2) 1000))] }) := by
  refine ⟨fun now limit win => rfl, ?_, ?_, ?_, ?_, ?_⟩
  · intro d now limit win h
    simp [RateLimitValidator.checkRateLimit, h]
  · intro d now limit win h1 h2
    simp [RateLimitValidator.checkRateLimit, not_lt.mpr h1, h2, Nat.not_lt.mpr h2]
  · intro d now limit win h1 h2
    simp [RateLimitValidator.checkRateLimit, not_lt.mpr h1, Nat.not_le.mpr h2]
  · intro a
    unfold jsCeilDiv
    rw [Int.fdiv_eq_ediv _ (by norm_num : (0 : Int) ≤ 1000)]
    omega
  · intro payload valCtx config data now now2 j toolName hj htool hen hblocked
    simp only [RateLimitValidator.validateRequest, hj, htool, hen, Bool.not_true,
      Bool.false_eq_true, if_false, hblocked]
    rfl

/-- Witness for C5: the blocked branch and the validator's blocked result
at a concrete cell, config and payload. -/
theorem c5_rate_limit_protocol_witness :
    (RateLimitValidator.checkRateLimit (some { count := 2, resetAt := 60000 }) 1000 2 60 =
      { write := none, allowed := false, currentCount := 2, resetAt := 60000 }) ∧
    ((RateLimitValidator.validateRequest
        { raw := "x",
          json := some (Json.obj [("method", .str "tools/call"),
            ("params", Json.obj [("name", .str "read_file")])]) }
        {}
        (some { enabled := true, limit := 2, windowSeconds := 60,
                identifierTypes := [.TOOL] })
        (some { count := 2, resetAt := 60000 }) 1000 1000).result =
      some { allowed := false
             modified := false
             reason := some "Rate limit exceeded for tool 'read_file'. Try again in 59 seconds."
             metadata := some [("policy_id", .str "RateLimitPolicy"),
               ("tool_name", .str "read_file"),
               ("current_count", .int 2), ("limit", .int 2),
               ("reset_at", .int 60000), ("reset_in_seconds", .int 59)] }) := by
  constructor
  · exact c5_rate_limit_protocol.2.2.1 _ _ _ _ (by decide) (by decide)
  · have := c5_rate_limit_protocol.2.2.2.2.2
      { raw := "x", json := some (Json.obj [("method", .str "tools/call"),
        ("params", Json.obj [("name", .str "read_file")])]) }
      {}
      { enabled := true, limit := 2, windowSeconds := 60, identifierTypes := [.TOOL] }
      (some { count := 2, resetAt := 60000 }) 1000 1000
      (Json.obj [("method", .str "tools/call"),
        ("params", Json.obj [("name", .str "read_file")])]) "read_file"
      rfl rfl rfl (by decide)
    simpa using this

/-- C9: a tool descriptor whose parsed LLM verdict has
`maliciousMatchScore > 0.75` or `toolNameDescriptionMatchScore < 0.7` (and
only such a descriptor) triggers exactly one threat report, carrying
`policy_id = "MCPMaliciousComponent"`, the synthetic endpoint
`<original>/tools/list/<toolName>`, and a filtered response containing only
that tool. -/
theorem c9_metadata_auditor_threshold (tool : Json) (valCtx : ValidationContext)
    (resp : LLMValidationResponse) (n : String)
    (hname : tool.getField "name" = some (.str n)) (hn : n ≠ "") :
    ((resp.maliciousMatchScore > (0.75 : Rat)
        ∨ resp.toolNameDescriptionMatchScore < (0.7 : Rat)) →
      McpMetadataValidator.validateTool tool valCtx (.ok resp) =
        [McpMetadataValidator.reportToolThreat tool resp valCtx] ∧
      (McpMetadataValidator.reportToolThreat tool resp valCtx).validationResult.metaGet
        "policy_id" = some (.str "MCPMaliciousComponent") ∧
      (McpMetadataValidator.reportToolThreat tool resp valCtx).valCtx.endpoint =
        some ((valCtx.endpoint.getD "undefined") ++ "/tools/list/" ++ n) ∧
      (McpMetadataValidator.reportToolThreat tool resp valCtx).valCtx.responsePayload =
        some (Json.obj [("result", Json.obj [("tools", Json.arr [tool])])]).render) ∧
    (¬(resp.maliciousMatchScore > (0.75 : Rat)
        ∨ resp.toolNameDescriptionMatchScore < (0.7 : Rat)) →
      McpMetadataValidator.validateTool tool valCtx (.ok resp) = []) := by
  have htruthy : jsTruthy (tool.getField "name") = true := by
    rw [hname]
    simp [jsTruthy, Json.truthy, hn]
  constructor
  · intro hscore
    refine ⟨?_, ?_, ?_, ?_⟩
    · simp [McpMetadataValidator.validateTool, htruthy, hscore]
    · rfl
    · simp [McpMetadataValidator.reportToolThreat, hname, jsToStr, Json.toJsString]
      cases valCtx.endpoint <;> rfl
    · rfl
  · intro hscore
    simp [McpMetadataValidator.validateTool, htruthy, hscore]

/-- Witness for C9 at the spec's concrete scenario. -/
theorem c9_metadata_auditor_threshold_witness :
    McpMetadataValidator.validateTool
      (Json.obj [("name", .str "get_weather"),
        ("description", .str "Executes arbitrary shell commands")])
      { endpoint := some "/mcp" }
      (.ok
        { isMalicious := true, maliciousMatchScore := 0.9,
          toolNameDescriptionMatchScore := 0.2, reason := "mismatch" }) =
      [McpMetadataValidator.reportToolThreat
        (Json.obj [("name", .str "get_weather"),
          ("description", .str "Executes arbitrary shell commands")])
          { isMalicious := true, maliciousMatchScore := 0.9,
            toolNameDescriptionMatchScore := 0.2, reason := "mismatch" }
        { endpoint := some "/mcp" }] ∧
    (McpMetadataValidator.reportToolThreat
      (Json.obj [("name", .str "get_weather"),
        ("description", .str "Executes arbitrary shell commands")])
        { isMalicious := true, maliciousMatchScore := 0.9,
          toolNameDescriptionMatchScore := 0.2, reason := "mismatch" }
      { endpoint := some "/mcp" }).valCtx.endpoint =
      some "/mcp/tools/list/get_weather" := by
  have h := c9_metadata_auditor_threshold
    (Json.obj [("name", .str "get_weather"),
      ("description", .str "Executes arbitrary shell commands")])
    { endpoint := some "/mcp" }
      { isMalicious := true, maliciousMatchScore := 0.9,
        toolNameDescriptionMatchScore := 0.2, reason := "mismatch" }
    "get_weather" rfl (by decide)
  refine ⟨(h.1 (Or.inl (by norm_num))).1, ?_⟩
  have := (h.1 (Or.inl (by norm_num))).2.2.1
  simpa using this

theorem record_get_erase {α : Type} (m : Record α) (k r : String) (h : r ≠ k) :
    Record.get (Record.eraseKey m k) r = Record.get m r := by
  induction m with
  | nil => rfl
  | cons hd t ih =>
    obtain ⟨k', v⟩ := hd
    by_cases hk : k' = k
    · have h1 : (k' == k) = true := beq_iff_eq.mpr hk
      have h2 : (r == k') = false := beq_eq_false_iff_ne.mpr (by rw [hk]; exact h)
      simp [Record.eraseKey, h1, Record.get, h2, ih]
    · have h1 : (k' == k) = false := beq_eq_false_iff_ne.mpr hk
      simp only [Record.eraseKey, h1, Bool.false_eq_true, if_false, Record.get]
      rw [ih]

theorem record_get_set {α : Type} (m : Record α) (k r : String) (v : α) :
    Record.get (m.set k v) r = if r == k then some v else Record.get m r := by
  unfold Record.set
  by_cases hrk : r = k
  · simp [Record.get, beq_iff_eq.mpr hrk]
  · have hb : (r == k) = false := beq_eq_false_iff_ne.mpr hrk
    simp only [Record.get, hb, Bool.false_eq_true, if_false]
    exact record_get_erase m k r hrk

theorem buildAuditPoliciesMap_get_aux (l : List (Option AuditPolicy))
    (acc : Record AuditPolicy) (r : String) (hr : r ≠ "") :
    Record.get (l.foldl (fun acc policy? =>
      match policy? with
      | some policy =>
        if policy.resourceName == "" then acc
        else acc.set policy.resourceName policy
      | none => acc) acc) r =
      (lastWithName l r <|> Record.get acc r) := by
  induction l generalizing acc with
  | nil => simp [lastWithName]
  | cons policy? t ih =>
    simp only [List.foldl_cons]
    rw [ih]
    cases hlast : lastWithName t r with
    | some q => simp [lastWithName, hlast]
    | none =>
      simp only [lastWithName, hlast]
      cases policy? with
      | none => rfl
      | some p =>
        by_cases hpn : p.resourceName = ""
        · have h1 : (p.resourceName == "") = true := beq_iff_eq.mpr hpn
          have h2 : (p.resourceName == r) = false :=
            beq_eq_false_iff_ne.mpr (by rw [hpn]; exact fun hc => hr hc.symm)
          simp [h1, h2]
        · have h1 : (p.resourceName == "") = false := beq_eq_false_iff_ne.mpr hpn
          simp only [h1, Bool.false_eq_true, if_false]
          rw [record_get_set]
          by_cases heq : p.resourceName = r
          · have ha : (p.resourceName == r) = true := beq_iff_eq.mpr heq
            have hb : (r == p.resourceName) = true := beq_iff_eq.mpr heq.symm
            simp [ha, hb]
          · have ha : (p.resourceName == r) = false := beq_eq_false_iff_ne.mpr heq
            have hb : (r == p.resourceName) = false :=
              beq_eq_false_iff_ne.mpr (fun hc => heq hc.symm)
            simp [ha, hb]

theorem lastWithName_resourceName (l : List (Option AuditPolicy)) (r : String)
    (q : AuditPolicy) (h : lastWithName l r = some q) : q.resourceName = r := by
  induction l with
  | nil => simp [lastWithName] at h
  | cons policy? t ih =>
    simp only [lastWithName] at h
    cases hlast : lastWithName t r with
    | some q' =>
      rw [hlast] at h
      simp only [Option.some.injEq] at h
      exact ih (by rw [hlast, h])
    | none =>
      rw [hlast] at h
      cases policy? with
      | none => simp at h
      | some p =>
        simp only at h
        by_cases hpr : p.resourceName = r
        · have hb : (p.resourceName == r) = true := beq_iff_eq.mpr hpr
          rw [hb] at h
          simp only [if_true] at h
          simp only [Option.some.injEq] at h
          rw [← h]
          exact hpr
        · have hb : (p.resourceName == r) = false := beq_eq_false_iff_ne.mpr hpr
          rw [hb] at h
          simp at h

theorem lastWithName_isSome_of_mem (l : List (Option AuditPolicy)) (p : AuditPolicy)
    (hmem : some p ∈ l) : (lastWithName l p.resourceName).isSome = true := by
  induction l with
  | nil => simp at hmem
  | cons policy? t ih =>
    simp only [lastWithName]
    cases hlast : lastWithName t p.resourceName with
    | some q => rfl
    | none =>
      rcases List.mem_cons.mp hmem with hhd | htl
      · rw [← hhd]
        simp
      · have := ih htl
        rw [hlast] at this
        simp at this

/-- C4 counterexample: `fetchMcpAuditInfo` keys its map by the raw
`resourceName`, so an entry named `"Delete_All"` is found under
`"Delete_All"` and NOT under `lowercase("Delete_All") = "delete_all"`,
contrary to the claim. -/
theorem c4_lowercase_key_counterexample :
    Record.get (PolicyManager.buildAuditPoliciesMap
        [some { resourceName := "Delete_All", remarks := some "Rejected" }])
      (jsToLower "Delete_All") = none ∧
    jsToLower "Delete_All" = "delete_all" ∧
    Record.get (PolicyManager.buildAuditPoliciesMap
        [some { resourceName := "Delete_All", remarks := some "Rejected" }])
      "Delete_All" =
      some { resourceName := "Delete_All", remarks := some "Rejected" } := by
  exact ⟨rfl, rfl, rfl⟩

/-- C4 (amended): the map produced by `fetchMcpAuditInfo` is keyed by the
RAW resource name: looking up any non-empty name returns exactly the last
fetched entry carrying that name, and in particular every entry with a
non-empty `resourceName` is found under the key `resourceName` itself. -/
theorem c4_audit_map_keyed_by_raw_name :
    (∀ (l : List (Option AuditPolicy)) (r : String), r ≠ "" →
      Record.get (PolicyManager.buildAuditPoliciesMap l) r = lastWithName l r) ∧
    (∀ (l : List (Option AuditPolicy)) (p : AuditPolicy),
      some p ∈ l → p.resourceName ≠ "" →
      ∃ q, Record.get (PolicyManager.buildAuditPoliciesMap l) p.resourceName = some q ∧
        q.resourceName = p.resourceName) := by
  have hmain : ∀ (l : List (Option AuditPolicy)) (r : String), r ≠ "" →
      Record.get (PolicyManager.buildAuditPoliciesMap l) r = lastWithName l r := by
    intro l r hr
    unfold PolicyManager.buildAuditPoliciesMap
    rw [buildAuditPoliciesMap_get_aux l Record.empty r hr]
    cases lastWithName l r <;> rfl
  refine ⟨hmain, ?_⟩
  intro l p hmem hne
  have hsome := lastWithName_isSome_of_mem l p hmem
  cases hlast : lastWithName l p.resourceName with
  | none => rw [hlast] at hsome; simp at hsome
  | some q =>
    exact ⟨q, by rw [hmain l p.resourceName hne, hlast],
      lastWithName_resourceName l p.resourceName q hlast⟩

/-- Witness for C4's amended theorem at a concrete fetched list. -/
theorem c4_audit_map_keyed_by_raw_name_witness :
    Record.get (PolicyManager.buildAuditPoliciesMap
        [some { resourceName := "Delete_All", remarks := some "Rejected" }])
      "Delete_All" =
      lastWithName [some { resourceName := "Delete_All", remarks := some "Rejected" }]
        "Delete_All" := by
  exact c4_audit_map_keyed_by_raw_name.1 _ "Delete_All" (by decide)

theorem safe_method_facts (m : String) (hm : m ∈ PolicyValidator.SAFE_MCP_METHODS) :
    PolicyValidator.isSafeMCPMethod m = true ∧ (m == "") = false
      ∧ (m == "tools/call") = false ∧ (m == "prompts/get") = false
      ∧ (m == "resources/read") = false := by
  fin_cases hm <;> exact ⟨rfl, rfl, rfl, rfl, rfl⟩

theorem safe_method_resource_name (j : Json) (m : String)
    (hf : j.getField "method" = some (.str m))
    (hm : m ∈ PolicyValidator.SAFE_MCP_METHODS) :
    AuditValidator.extractResourceName j = "" := by
  obtain ⟨_, h1, h2, h3, h4⟩ := safe_method_facts m hm
  unfold AuditValidator.extractResourceName
  rw [hf]
  simp [jsTruthy, Json.truthy, h1, jsEqS, Json.eqStr, h2, h3, h4]

theorem safe_method_audit_none (payload : Payload) (ctx : ValidationContext)
    (nowMs : Int) (j : Json) (m : String)
    (hj : payload.json = some j)
    (hf : j.getField "method" = some (.str m))
    (hm : m ∈ PolicyValidator.SAFE_MCP_METHODS) :
    AuditValidator.validateRequest payload ctx nowMs = none := by
  unfold AuditValidator.validateRequest
  rw [hj]
  simp [safe_method_resource_name j m hf hm]

theorem safe_method_extract_empty (payload : Payload) (j : Json) (m : String)
    (hj : payload.json = some j)
    (hf : j.getField "method" = some (.str m))
    (hm : m ∈ PolicyValidator.SAFE_MCP_METHODS) :
    PolicyValidator.extractUserControlledFields payload = "" := by
  obtain ⟨hsafe, h1, _, _, _⟩ := safe_method_facts m hm
  unfold PolicyValidator.extractUserControlledFields
  by_cases hraw : payload.raw = ""
  · simp [hraw]
  · rw [if_neg (by simpa using hraw), hj]
    simp [jsTruthy, Json.truthy, hf, h1, hsafe]

/-- C1: a payload that parses as JSON with a safe MCP method is allowed
unmodified, whatever the params shape, the policies and the audit
policies, and the scanner client is never invoked. -/
theorem c1_safe_method_short_circuit (net : ScannerInfo → Except Unit ScanResult)
    (payload : Payload) (valCtx : ValidationContext) (nowMs : Int)
    (j : Json) (m : String)
    (hraw : payload.raw ≠ "")
    (hj : payload.json = some j)
    (hf : j.getField "method" = some (.str m))
    (hm : m ∈ PolicyValidator.SAFE_MCP_METHODS) :
    (PolicyValidator.validateRequest net payload valCtx nowMs).result = allowResult ∧
    (PolicyValidator.validateRequest net payload valCtx nowMs).scannerTasks = [] := by
  have haudit := safe_method_audit_none payload valCtx nowMs j m hj hf hm
  have hextract := safe_method_extract_empty payload j m hj hf hm
  have hrawb : (payload.raw == "") = false := beq_eq_false_iff_ne.mpr hraw
  constructor <;>
    simp [PolicyValidator.validateRequest, PolicyValidator.auditBlockStep, hrawb,
      haudit, hextract]

/-- Witness for C1 at the spec's ping scenario (with an active
harmful-categories policy and an audit rule present). -/
theorem c1_safe_method_short_circuit_witness :
    (PolicyValidator.validateRequest (fun _ => .error ())
        { raw := "\x7b\"jsonrpc\":\"2.0\",\"id\":1,\"method\":\"ping\"\x7d",
          json := some (Json.obj [("jsonrpc", .str "2.0"), ("id", .num 1),
            ("method", .str "ping")]) }
        { policies := some [
            { id := "MCPGuardrails", name := "p", active := true, action := "block",
              filters := { requestPayload := some [
                { type := "harmfulCategories", action := some "block" }] } }]
          auditPolicies := some [("tool_x",
            { resourceName := "tool_x", remarks := some "Rejected" })]
          hasAuditRules := some true }
        0).result = allowResult ∧
    (PolicyValidator.validateRequest (fun _ => .error ())
        { raw := "\x7b\"jsonrpc\":\"2.0\",\"id\":1,\"method\":\"ping\"\x7d",
          json := some (Json.obj [("jsonrpc", .str "2.0"), ("id", .num 1),
            ("method", .str "ping")]) }
        { policies := some [
            { id := "MCPGuardrails", name := "p", active := true, action := "block",
              filters := { requestPayload := some [
                { type := "harmfulCategories", action := some "block" }] } }]
          auditPolicies := some [("tool_x",
            { resourceName := "tool_x", remarks := some "Rejected" })]
          hasAuditRules := some true }
        0).scannerTasks = [] := by
  exact c1_safe_method_short_circuit _ _ _ 0 _ "ping" (by decide) rfl rfl (by decide)

/-- C3 counterexample: the regex is compiled WITHOUT the global flag, so
`text.replace(regex, "[REDACTED]")` replaces only the first match: on
`"aa"` with pattern `"a"` the validator yields `"[REDACTED]a"`, not the
all-occurrences replacement `"[REDACTED][REDACTED]"` the claim demands. -/
theorem c3_redact_all_matches_counterexample :
    (RegexValidator.validate (fun p => if p == "a" then some (litCI 'a') else none)
        "aa" { type := "regex", pattern := some "a", action := some "redact" }
        { id := "MCPGuardrails", name := "p", active := true, action := "block",
          filters := {} }).modifiedPayload = some "[REDACTED]a" ∧
    jsReplaceAll (litCI 'a') "aa" "[REDACTED]" = "[REDACTED][REDACTED]" ∧
    jsTest (litCI 'a') "aa" = true ∧
    ("[REDACTED]a" : String) ≠ "[REDACTED][REDACTED]" := by
  exact ⟨by decide, by decide, by decide, by decide⟩

/-- C3 (amended): for every text and redact regex rule whose compiled
(case-insensitive) pattern matches, `RegexValidator.validate` returns
`allowed=true, modified=true`, and `modifiedPayload` equal to the text
with only the FIRST match replaced by `[REDACTED]` (the regex is compiled
without the global flag). -/
theorem c3_regex_redact_first_match (compile : String → Option Rx) (text : String)
    (rule : FilterRule) (policy : Policy) (pattern : String) (rx : Rx)
    (hp : rule.pattern = some pattern) (hpne : pattern ≠ "")
    (hc : compile pattern = some rx)
    (ha : rule.action = some "redact")
    (hm : jsTest rx text = true) :
    RegexValidator.validate compile text rule policy =
      { allowed := true, modified := true,
        modifiedPayload := some (jsReplaceFirst rx text "[REDACTED]") } := by
  have hb : (pattern == "") = false := beq_eq_false_iff_ne.mpr hpne
  simp only [RegexValidator.validate, hp, hc]
  simp [hb, hm, ha, jsOrStr]

/-- Witness for C3's amended theorem at the two-match input. -/
theorem c3_regex_redact_first_match_witness :
    RegexValidator.validate (fun p => if p == "a" then some (litCI 'a') else none)
      "aa" { type := "regex", pattern := some "a", action := some "redact" }
      { id := "MCPGuardrails", name := "p", active := true, action := "block",
        filters := {} } =
      { allowed := true, modified := true,
        modifiedPayload := some (jsReplaceFirst (litCI 'a') "aa" "[REDACTED]") } := by
  exact c3_regex_redact_first_match _ _ _ _ "a" (litCI 'a') rfl (by decide) rfl
    rfl (by decide)

/-- C10: `PIIValidator.validate` is NOT deterministic across successive
invocations — the module-level PII regexes carry the `g` flag and are
shared, so a blocking `.test` advances `lastIndex`: on the SSN
`"123-45-6789"` the first call blocks and the identical second call
allows.  (The spec describes the PII validator as a deterministic
matcher, so this is a bug in the code.) -/
theorem c10_pii_validate_not_deterministic :
    ((PIIValidator.validate "123-45-6789"
        { type := "pii", pattern := some "ssn", action := some "block" }
        { id := "MCPGuardrails", name := "p", active := true, action := "block",
          filters := {} }
        PiiState.init).1.allowed = false) ∧
    ((PIIValidator.validate "123-45-6789"
        { type := "pii", pattern := some "ssn", action := some "block" }
        { id := "MCPGuardrails", name := "p", active := true, action := "block",
          filters := {} }
        (PIIValidator.validate "123-45-6789"
          { type := "pii", pattern := some "ssn", action := some "block" }
          { id := "MCPGuardrails", name := "p", active := true, action := "block",
            filters := {} }
          PiiState.init).2).1.allowed = true) := by
  exact ⟨by decide, by decide⟩

/-- C6 counterexample: the server-level audit policy is consulted BEFORE
the resource-level one, so a request whose resource has a "rejected"
policy can be blocked with a different reason (here the server policy is
conditionally approved with no conditions). -/
theorem c6_audit_reject_counterexample :
    AuditValidator.extractResourceName
      (Json.obj [("method", .str "tools/call"),
        ("params", Json.obj [("name", .str "delete_all")])]) = "delete_all" ∧
    Record.get
      ([("srv", { resourceName := "srv", remarks := some "Conditionally Approved" }),
        ("delete_all", { resourceName := "delete_all", remarks := some "Rejected" })] :
        Record AuditPolicy)
      "delete_all" =
      some { resourceName := "delete_all", remarks := some "Rejected" } ∧
    jsToLower (jsTrim "Rejected") = "rejected" ∧
    AuditValidator.validateRequest
      { raw := "\x7b\"method\":\"tools/call\",\"params\":\x7b\"name\":\"delete_all\"\x7d\x7d",
        json := some (Json.obj [("method", .str "tools/call"),
          ("params", Json.obj [("name", .str "delete_all")])]) }
      { mcpServerName := some "srv"
        auditPolicies := some
          [("srv", { resourceName := "srv", remarks := some "Conditionally Approved" }),
           ("delete_all", { resourceName := "delete_all", remarks := some "Rejected" })]
        hasAuditRules := some true }
      0 =
      some (AuditValidator.auditBlocked "No approval conditions defined") ∧
    ("No approval conditions defined" : String) ≠
      "Resource access has been rejected by Audit Policy" := by
  exact ⟨by decide, rfl, by decide, rfl, by decide⟩

/-- C6 (amended): when the extracted resource name has an audit policy
whose remarks trim-lowercase to "rejected" AND no server-level audit
policy blocks first, the audit validator returns `allowed=false` with
reason exactly "Resource access has been rejected by Audit Policy" and
`metadata.policy_id = "AuditPolicy"`, and the orchestrator returns this
result immediately with no scanner fan-out. -/
theorem c6_audit_reject_wins (net : ScannerInfo → Except Unit ScanResult)
    (payload : Payload) (valCtx : ValidationContext) (nowMs : Int)
    (j : Json) (r : String) (p : AuditPolicy)
    (hraw : payload.raw ≠ "")
    (hj : payload.json = some j)
    (hr : AuditValidator.extractResourceName j = r)
    (hrne : r ≠ "")
    (hp : Record.get (valCtx.auditPolicies.getD Record.empty) r = some p)
    (hrej : jsToLower ((p.remarks.map jsTrim).getD "") = "rejected")
    (har : boolOptTruthy valCtx.hasAuditRules = true)
    (hap : valCtx.auditPolicies.isSome = true)
    (hserver : ∀ s, valCtx.mcpServerName = some s → s ≠ "" →
      ∀ sp, Record.get (valCtx.auditPolicies.getD Record.empty) (jsToLower s) = some sp →
        (AuditValidator.validateWithPolicy sp valCtx nowMs).allowed = true) :
    AuditValidator.validateRequest payload valCtx nowMs =
      some (AuditValidator.auditBlocked
        "Resource access has been rejected by Audit Policy") ∧
    (AuditValidator.auditBlocked
      "Resource access has been rejected by Audit Policy").metaGet "policy_id" =
      some (.str "AuditPolicy") ∧
    (PolicyValidator.validateRequest net payload valCtx nowMs).result =
      AuditValidator.auditBlocked "Resource access has been rejected by Audit Policy" ∧
    (PolicyValidator.validateRequest net payload valCtx nowMs).scannerTasks = [] := by
  have hvwp : AuditValidator.validateWithPolicy p valCtx nowMs =
      AuditValidator.auditBlocked "Resource access has been rejected by Audit Policy" := by
    unfold AuditValidator.validateWithPolicy
    simp only [hrej]
    rfl
  have hserverStep : (if strOptTruthy valCtx.mcpServerName = true then
      match Record.get (valCtx.auditPolicies.getD Record.empty)
          (jsToLower (valCtx.mcpServerName.getD "")) with
      | some serverPolicy =>
        let result := AuditValidator.validateWithPolicy serverPolicy valCtx nowMs
        if !result.allowed then some result else none
      | none => none
    else none) = (none : Option ValidationResult) := by
    cases hs : valCtx.mcpServerName with
    | none => rfl
    | some s =>
      by_cases hse : s = ""
      · subst hse
        rfl
      · rw [if_pos (by simp [strOptTruthy, hse])]
        simp only [Option.getD_some]
        cases hlk : Record.get (valCtx.auditPolicies.getD Record.empty) (jsToLower s) with
        | none => rfl
        | some sp =>
          have hall := hserver s hs hse sp hlk
          simp [hall]
  have haudit : AuditValidator.validateRequest payload valCtx nowMs =
      some (AuditValidator.auditBlocked
        "Resource access has been rejected by Audit Policy") := by
    unfold AuditValidator.validateRequest
    rw [hj]
    simp only [hr]
    rw [if_neg (by simpa using hrne)]
    simp only [hserverStep, hp, hvwp]
  have habstep : PolicyValidator.auditBlockStep payload valCtx nowMs =
      some (AuditValidator.auditBlocked
        "Resource access has been rejected by Audit Policy") := by
    unfold PolicyValidator.auditBlockStep
    rw [if_pos (by simp [har, hap])]
    rw [haudit]
    rfl
  have hresult : PolicyValidator.validateRequest net payload valCtx nowMs =
      { result := AuditValidator.auditBlocked
          "Resource access has been rejected by Audit Policy"
        scannerTasks := [] } := by
    unfold PolicyValidator.validateRequest
    rw [if_neg (by simpa using hraw)]
    rw [habstep]
  exact ⟨haudit, rfl, by rw [hresult], by rw [hresult]⟩

/-- Witness for C6's amended theorem at the spec's delete_all scenario. -/
theorem c6_audit_reject_wins_witness :
    AuditValidator.validateRequest
      { raw := "\x7b\"method\":\"tools/call\",\"params\":\x7b\"name\":\"delete_all\"\x7d\x7d",
        json := some (Json.obj [("method", .str "tools/call"),
          ("params", Json.obj [("name", .str "delete_all")])]) }
      { auditPolicies := some
          [("delete_all", { resourceName := "delete_all", remarks := some "Rejected" })]
        hasAuditRules := some true }
      0 =
      some (AuditValidator.auditBlocked
        "Resource access has been rejected by Audit Policy") := by
  exact (c6_audit_reject_wins (fun _ => .error ())
    { raw := "\x7b\"method\":\"tools/call\",\"params\":\x7b\"name\":\"delete_all\"\x7d\x7d",
      json := some (Json.obj [("method", .str "tools/call"),
        ("params", Json.obj [("name", .str "delete_all")])]) }
    { auditPolicies := some
        [("delete_all", { resourceName := "delete_all", remarks := some "Rejected" })]
      hasAuditRules := some true }
    0
    (Json.obj [("method", .str "tools/call"),
      ("params", Json.obj [("name", .str "delete_all")])])
    "delete_all"
    { resourceName := "delete_all", remarks := some "Rejected" }
    (by decide) rfl (by decide) (by decide) rfl (by decide) rfl rfl
    (fun s hs => by simp at hs)).1

theorem inv_allow : resultInvariant allowResult := by
  constructor
  · intro h
    simp [allowResult] at h
  · intro h
    simp [allowResult] at h

theorem inv_auditBlocked (why : String) (h : why ≠ "") :
    resultInvariant (AuditValidator.auditBlocked why) := by
  constructor
  · intro _
    exact ⟨why, rfl, h⟩
  · intro hm
    simp [AuditValidator.auditBlocked] at hm

theorem inv_validateConditionalApproval (p : AuditPolicy) (ctx : ValidationContext)
    (nowMs : Int) :
    resultInvariant (AuditValidator.validateConditionalApproval p ctx nowMs) := by
  unfold AuditValidator.validateConditionalApproval
  cases p.approvalConditions with
  | none => exact inv_auditBlocked _ (by decide)
  | some conditions =>
    simp only []
    split_ifs <;> first
      | exact inv_auditBlocked _ (by decide)
      | exact inv_allow

theorem inv_validateWithPolicy (p : AuditPolicy) (ctx : ValidationContext)
    (nowMs : Int) :
    resultInvariant (AuditValidator.validateWithPolicy p ctx nowMs) := by
  unfold AuditValidator.validateWithPolicy
  simp only []
  split_ifs <;> first
    | exact inv_auditBlocked _ (by decide)
    | exact inv_validateConditionalApproval p ctx nowMs
    | exact inv_allow

theorem inv_audit_validateRequest (payload : Payload) (ctx : ValidationContext)
    (nowMs : Int) (r : ValidationResult)
    (h : AuditValidator.validateRequest payload ctx nowMs = some r) :
    resultInvariant r := by
  unfold AuditValidator.validateRequest at h
  simp only [] at h
  split at h
  · exact absurd h (by simp)
  · split at h
    · exact absurd h (by simp)
    · split at h
      case _ r0 heq =>
        simp only [Option.some.injEq] at h
        subst h
        split at heq
        · split at heq
          case _ sp hsp =>
            split at heq
            · simp only [Option.some.injEq] at heq
              subst heq
              exact inv_validateWithPolicy sp ctx nowMs
            · exact absurd heq (by simp)
          case _ hsp => exact absurd heq (by simp)
        · exact absurd heq (by simp)
      case _ heq =>
        split at h
        · exact absurd h (by simp)
        case _ p hp =>
          simp only [Option.some.injEq] at h
          subst h
          exact inv_validateWithPolicy p ctx nowMs

theorem inv_pii_validate (text : String) (rule : FilterRule) (policy : Policy)
    (st : PiiState) :
    resultInvariant (PIIValidator.validate text rule policy st).1 := by
  unfold PIIValidator.validate
  simp only []
  repeat' first
    | exact inv_allow
    | exact ⟨fun _ => ⟨_, rfl, strAppend_ne_empty _ _ (by decide)⟩,
        fun hm => by simp at hm⟩
    | exact ⟨fun hfalse => by simp at hfalse, fun _ => ⟨rfl, rfl⟩⟩
    | split

theorem inv_regex_validate (compile : String → Option Rx) (text : String)
    (rule : FilterRule) (policy : Policy) :
    resultInvariant (RegexValidator.validate compile text rule policy) := by
  unfold RegexValidator.validate
  simp only []
  repeat' first
    | exact inv_allow
    | exact ⟨fun _ => ⟨_, rfl, strAppend_ne_empty _ _ (by decide)⟩,
        fun hm => by simp at hm⟩
    | exact ⟨fun hfalse => by simp at hfalse, fun _ => ⟨rfl, rfl⟩⟩
    | split

theorem inv_rl_validateRequest (payload : Payload) (valCtx : ValidationContext)
    (cfg : Option RateLimitConfig) (data : Option RateLimitCell) (now now2 : Int)
    (r : ValidationResult)
    (h : (RateLimitValidator.validateRequest payload valCtx cfg data now now2).result
      = some r) :
    resultInvariant r := by
  unfold RateLimitValidator.validateRequest at h
  simp only [] at h
  split at h
  · exact absurd h (by simp)
  · split at h
    · exact absurd h (by simp)
    · split at h
      · exact absurd h (by simp)
      · split at h
        · exact absurd h (by simp)
        · split at h
          · simp only [Option.some.injEq] at h
            subst h
            exact ⟨fun _ => ⟨_, rfl, strAppend_ne_empty _ _ (strAppend_ne_empty _ _
                (strAppend_ne_empty _ _ (strAppend_ne_empty _ _ (by decide))))⟩,
              fun hm => by simp at hm⟩
          · simp only [Option.some.injEq] at h
            subst h
            exact ⟨fun hfalse => by simp at hfalse, fun hm => by simp at hm⟩

theorem inv_scannerBlockResult (tasks : List ScannerTask) (res : ScanResult) :
    resultInvariant (PolicyValidator.scannerBlockResult tasks res) :=
  ⟨fun _ => ⟨_, rfl, strAppend_ne_empty _ _ (strAppend_ne_empty _ _
      (strAppend_ne_empty _ _ (strAppend_ne_empty _ _ (by decide))))⟩,
    fun hm => by simp [PolicyValidator.scannerBlockResult] at hm⟩

theorem inv_auditBlockStep (payload : Payload) (ctx : ValidationContext)
    (nowMs : Int) (b : ValidationResult)
    (h : PolicyValidator.auditBlockStep payload ctx nowMs = some b) :
    resultInvariant b := by
  unfold PolicyValidator.auditBlockStep at h
  split at h
  · split at h
    case _ ar har =>
      split at h
      · simp only [Option.some.injEq] at h
        subst h
        exact inv_audit_validateRequest _ _ _ _ har
      · exact absurd h (by simp)
    case _ har => exact absurd h (by simp)
  · exact absurd h (by simp)

theorem inv_validateRequest (net : ScannerInfo → Except Unit ScanResult)
    (payload : Payload) (valCtx : ValidationContext) (nowMs : Int) :
    resultInvariant (PolicyValidator.validateRequest net payload valCtx nowMs).result := by
  unfold PolicyValidator.validateRequest
  split
  · exact inv_allow
  · simp only []
    split
    case _ blocked heq => exact inv_auditBlockStep _ _ _ _ heq
    case _ heq =>
      split
      · exact inv_allow
      · split
        · exact inv_allow
        · split
          · exact inv_scannerBlockResult _ _
          · exact inv_allow

theorem inv_validateResponse (net : ScannerInfo → Except Unit ScanResult)
    (payload : Payload) (valCtx : ValidationContext) :
    resultInvariant (PolicyValidator.validateResponse net payload valCtx).result := by
  unfold PolicyValidator.validateResponse
  split
  · exact inv_allow
  · simp only []
    split
    · exact inv_allow
    · split
      · exact inv_scannerBlockResult _ _
      · exact inv_allow

/-- C2: every `ValidationResult` produced by the orchestrator
(`validateRequest`/`validateResponse`), the PII validator, the regex
validator, the rate-limit validator or the audit validator satisfies
invariants I1 and I2: `allowed=false` implies a non-empty reason, and
`modified=true` implies a present `modifiedPayload` and `allowed=true`. -/
theorem c2_validation_result_invariants :
    (∀ (net : ScannerInfo → Except Unit ScanResult) (payload : Payload)
        (valCtx : ValidationContext) (nowMs : Int),
      resultInvariant (PolicyValidator.validateRequest net payload valCtx nowMs).result) ∧
    (∀ (net : ScannerInfo → Except Unit ScanResult) (payload : Payload)
        (valCtx : ValidationContext),
      resultInvariant (PolicyValidator.validateResponse net payload valCtx).result) ∧
    (∀ (text : String) (rule : FilterRule) (policy : Policy) (st : PiiState),
      resultInvariant (PIIValidator.validate text rule policy st).1) ∧
    (∀ (compile : String → Option Rx) (text : String) (rule : FilterRule)
        (policy : Policy),
      resultInvariant (RegexValidator.validate compile text rule policy)) ∧
    (∀ (payload : Payload) (valCtx : ValidationContext) (cfg : Option RateLimitConfig)
        (data : Option RateLimitCell) (now now2 : Int) (r : ValidationResult),
      (RateLimitValidator.validateRequest payload valCtx cfg data now now2).result = some r →
      resultInvariant r) ∧
    (∀ (payload : Payload) (valCtx : ValidationContext) (nowMs : Int)
        (r : ValidationResult),
      AuditValidator.validateRequest payload valCtx nowMs = some r →
      resultInvariant r) :=
  ⟨inv_validateRequest, inv_validateResponse, inv_pii_validate, inv_regex_validate,
    inv_rl_validateRequest, inv_audit_validateRequest⟩

theorem toUint32_lt (x : Int) : toUint32 x < 4294967296 := by
  unfold toUint32
  have h1 := Int.emod_nonneg x (by norm_num : (4294967296 : Int) ≠ 0)
  have h2 := Int.emod_lt_of_pos x (by norm_num : (0 : Int) < 4294967296)
  omega

theorem int32OfUInt32_inj (u v : Nat) (hu : u < 4294967296) (hv : v < 4294967296) :
    (int32OfUInt32 u = int32OfUInt32 v) ↔ u = v := by
  unfold int32OfUInt32
  split_ifs <;> omega

theorem mask_toUint32 (b : Nat) (hb : b ≤ 32) :
    toUint32 (AuditValidator.cidrMask (some (b : Int))) = 2 ^ 32 - 2 ^ (32 - b) := by
  interval_cases b <;> decide

theorem land_mask (x b : Nat) (hx : x < 2 ^ 32) (hb : b ≤ 32) :
    x &&& (2 ^ 32 - 2 ^ (32 - b)) = (x >>> (32 - b)) <<< (32 - b) := by
  have hmask : 2 ^ 32 - 2 ^ (32 - b) = (2 ^ b - 1) <<< (32 - b) := by
    rw [Nat.shiftLeft_eq, Nat.sub_mul, one_mul, ← pow_add]
    congr 2
    omega
  apply Nat.eq_of_testBit_eq
  intro i
  rw [hmask, Nat.testBit_land, Nat.testBit_shiftLeft, Nat.testBit_shiftLeft,
    Nat.testBit_two_pow_sub_one, Nat.testBit_shiftRight]
  by_cases hik : i ≥ (32 - b)
  · have hki : (32 - b) + (i - (32 - b)) = i := by omega
    rw [hki]
    by_cases hib : i - (32 - b) < b
    · simp [hik, hib]
    · have hx32 : x.testBit i = false := by
        apply Nat.testBit_lt_two_pow
        calc x < 2 ^ 32 := hx
        _ ≤ 2 ^ i := Nat.pow_le_pow_right (by norm_num) (by omega)
      simp [hik, hib, hx32]
  · simp [hik]

theorem shiftRL_cancel (x y k : Nat) :
    ((x >>> k) <<< k = (y >>> k) <<< k) ↔ x >>> k = y >>> k := by
  rw [Nat.shiftLeft_eq, Nat.shiftLeft_eq]
  constructor
  · intro h
    exact Nat.eq_of_mul_eq_mul_right (Nat.pos_pow_of_pos k (by norm_num)) h
  · intro h
    rw [h]

theorem cidr_core (x y : Nat) (hx : x < 4294967296) (hy : y < 4294967296)
    (b : Nat) (hb : b ≤ 32) :
    ((jsAndU x (AuditValidator.cidrMask (some (b : Int)))
      == jsAndU y (AuditValidator.cidrMask (some (b : Int)))) = true) ↔
      x / 2 ^ (32 - b) = y / 2 ^ (32 - b) := by
  unfold jsAndU
  rw [Nat.mod_eq_of_lt hx, Nat.mod_eq_of_lt hy, mask_toUint32 b hb,
    beq_iff_eq]
  have hx' : x < 2 ^ 32 := hx
  have hy' : y < 2 ^ 32 := hy
  rw [land_mask x b hx' hb, land_mask y b hy' hb]
  rw [int32OfUInt32_inj _ _
    (by
      rw [Nat.shiftLeft_eq, Nat.shiftRight_eq_div_pow]
      calc x / 2 ^ (32 - b) * 2 ^ (32 - b) ≤ x := Nat.div_mul_le_self x _
      _ < 4294967296 := hx)
    (by
      rw [Nat.shiftLeft_eq, Nat.shiftRight_eq_div_pow]
      calc y / 2 ^ (32 - b) * 2 ^ (32 - b) ≤ y := Nat.div_mul_le_self y _
      _ < 4294967296 := hy)]
  rw [shiftRL_cancel, Nat.shiftRight_eq_div_pow, Nat.shiftRight_eq_div_pow]

theorem ipToNumber_lt (s : String) : AuditValidator.ipToNumber s < 4294967296 := by
  unfold AuditValidator.ipToNumber
  cases ((jsSplitChar s '.').foldl
      (fun acc octet =>
        match AuditValidator.jsParseInt octet with
        | none => none
        | some o => some (toInt32 (AuditValidator.toInt32N acc * 256) + o))
      (some 0)) with
  | none => decide
  | some v => exact toUint32_lt v

/-- C7: `isIPInCIDR y cidr` (for a CIDR string splitting as
`<range>/<bits>` with `0 ≤ bits ≤ 32`) returns true exactly when the top
`bits` bits of the 32-bit unsigned encodings (`ipToNumber`, the dotted
octet fold) of the two addresses agree, i.e. when the encodings agree
after division by `2^(32-bits)`; the mask used is `~(2^(32-bits) - 1)` as
unsigned 32-bit. -/
theorem c7_isIPInCIDR_top_bits (ip cidr rangeStr bitsStr : String) (bi : Int)
    (hsplit : jsSplitChar cidr '/' = [rangeStr, bitsStr])
    (hparse : AuditValidator.jsParseInt bitsStr = some bi)
    (hb0 : 0 ≤ bi) (hb32 : bi ≤ 32) :
    AuditValidator.isIPInCIDR ip cidr = true ↔
      AuditValidator.ipToNumber ip / 2 ^ (32 - bi.toNat) =
        AuditValidator.ipToNumber rangeStr / 2 ^ (32 - bi.toNat) := by
  have hbne : bitsStr ≠ "" := by
    intro hc
    rw [hc, show AuditValidator.jsParseInt "" = none from rfl] at hparse
    exact Option.noConfusion hparse
  unfold AuditValidator.isIPInCIDR
  simp only [hsplit, List.get?_cons_succ, List.get?_cons_zero]
  rw [if_neg (by simpa using hbne), hparse]
  have hhead : [rangeStr, bitsStr].headD "" = rangeStr := rfl
  rw [hhead]
  have hbi : bi = ((bi.toNat : Nat) : Int) := (Int.toNat_of_nonneg hb0).symm
  rw [hbi]
  exact cidr_core (AuditValidator.ipToNumber ip) (AuditValidator.ipToNumber rangeStr)
    (ipToNumber_lt ip) (ipToNumber_lt rangeStr) bi.toNat (by omega)

/-- Witness for C7 at the spec's concrete CIDR scenario. -/
theorem c7_isIPInCIDR_top_bits_witness :
    AuditValidator.isIPInCIDR "10.0.0.5" "10.0.0.0/24" = true := by
  exact (c7_isIPInCIDR_top_bits "10.0.0.5" "10.0.0.0/24" "10.0.0.0" "24" 24
    (by decide) (by decide) (by decide) (by decide)).mpr (by decide)

/-- Witness for C2 at a concrete blocked audit result. -/
theorem c2_validation_result_invariants_witness :
    resultInvariant (AuditValidator.auditBlocked
      "Resource access has been rejected by Audit Policy") := by
  exact c2_validation_result_invariants.2.2.2.2.2
    { raw := "\x7b\"method\":\"tools/call\",\"params\":\x7b\"name\":\"delete_all\"\x7d\x7d",
      json := some (Json.obj [("method", .str "tools/call"),
        ("params", Json.obj [("name", .str "delete_all")])]) }
    { auditPolicies := some
        [("delete_all", { resourceName := "delete_all", remarks := some "Rejected" })]
      hasAuditRules := some true }
    0 _ rfl

end AktoGuard
